import Mathlib

/-!
Verification of the telemetry signal-processing layer of `f1_data_fetcher.py`
(repository Cebric).  The session/telemetry provider is an external
collaborator; each analyzer below receives the already-extracted per-lap
numeric channels (`telemetry['Speed'].values if ... else []`, etc.) as a
`List ℚ`, a channel that is missing from the provider being the empty list,
exactly as in the source.  Fallible Python operations (list/array indexing,
`np.percentile` on an empty array) are modelled in `Except String`; a
`.error` value corresponds to the Python function raising, which the source
converts into a failure of the whole request.
-/

namespace F1

/-- Python/numpy indexing `l[i]` for the non-negative indices used by the
source; out of range raises `IndexError`. -/
def pyIdx (l : List ℚ) (i : ℕ) : Except String ℚ :=
  match l[i]? with
  | some v => Except.ok v
  | none => Except.error "IndexError"

/-- `np.mean` on a non-empty array (every call site guards non-emptiness,
so the `0/0 = 0` convention of `ℚ` is never relied upon). -/
def npMean (l : List ℚ) : ℚ := l.sum / l.length

/-- `np.max` on a non-empty array (call sites guarantee non-emptiness). -/
def npMax : List ℚ → ℚ
  | [] => 0
  | x :: xs => xs.foldl max x

/-- Insert into a sorted list (ascending). -/
def insertAsc (x : ℚ) : List ℚ → List ℚ
  | [] => [x]
  | y :: ys => if x ≤ y then x :: y :: ys else y :: insertAsc x ys

/-- Insertion sort, ascending — the sort underlying `np.percentile` and
`pandas.Series.median`. -/
def sortAsc : List ℚ → List ℚ
  | [] => []
  | x :: xs => insertAsc x (sortAsc xs)

/-- `np.percentile(l, q)` with the default linear interpolation:
on the ascending sort `s` of `l`, with `h = (n-1)*q/100`, the result is
`s[⌊h⌋] + (h - ⌊h⌋) * (s[⌊h⌋+1] - s[⌊h⌋])`.  Only called on non-empty input. -/
def npPercentile (l : List ℚ) (q : ℚ) : ℚ :=
  let s := sortAsc l
  let h : ℚ := ((l.length : ℚ) - 1) * q / 100
  let lo : ℕ := h.floor.toNat
  let slo := s.getD lo 0
  slo + (h - (h.floor : ℚ)) * (s.getD (lo + 1) slo - slo)

/-- `np.var`: population variance, mean of squared deviations. -/
def npVar (l : List ℚ) : ℚ :=
  npMean (l.map fun x => (x - npMean l) * (x - npMean l))

/-- `pandas.Series.median`: middle element of the ascending sort for odd
length, mean of the two middle elements for even length. -/
def pdMedian (l : List ℚ) : ℚ :=
  let s := sortAsc l
  let n := l.length
  if n % 2 = 1 then s.getD (n / 2) 0
  else (s.getD (n / 2 - 1) 0 + s.getD (n / 2) 0) / 2

/-- `min` of a non-empty series (`Series.min`). -/
def pdMin : List ℚ → ℚ
  | [] => 0
  | x :: xs => xs.foldl min x

/-! ## Downforce estimator (`get_downforce_analysis`) -/

/-- Output record of `get_downforce_analysis`. -/
structure DownforceAnalysis where
  downforceIndex : ℚ
  highSpeedAvg : ℚ
  lowSpeedAvg : ℚ
  speedVariance : ℚ
  aerodynamicEfficiency : ℚ
deriving DecidableEq

/-- `get_downforce_analysis`, lines 455-493 of the source, applied to the
extracted `Speed` channel (the `Distance` channel is extracted but unused).
`np.percentile` raises on an empty array, which the source's
`except` clause turns into a request failure. -/
def get_downforce_analysis (speed : List ℚ) : Except String DownforceAnalysis :=
  if speed.isEmpty then Except.error "IndexError"
  else
    let p75 := npPercentile speed 75
    let highs := speed.filter fun v => decide (p75 < v)
    let high_speed_avg := if highs.isEmpty then 0 else npMean highs
    let p25 := npPercentile speed 25
    let lows := speed.filter fun v => decide (v < p25)
    let low_speed_avg := if lows.isEmpty then 0 else npMean lows
    let speed_variance := if speed.isEmpty then 0 else npVar speed
    let downforce_index := min 100 (high_speed_avg / 350 * 70 + (30 - speed_variance / 100))
    Except.ok
      { downforceIndex := downforce_index
        highSpeedAvg := high_speed_avg
        lowSpeedAvg := low_speed_avg
        speedVariance := speed_variance
        aerodynamicEfficiency := high_speed_avg / (speed_variance + 1) }

/-! ## Brake-zone detector (`get_brake_analysis`) -/

/-- One entry of the `brakeZones` list. -/
structure BrakeZone where
  startDistance : ℚ
  endDistance : ℚ
  peakBrakeForce : ℚ
  avgBrakeForce : ℚ
  speedLoss : ℚ
  duration : ℚ
deriving DecidableEq

/-- The dictionary appended for the zone `brake[zone_start:i]` (source lines
519-530).  `distance[zone_start]` and `distance[i-1]` can raise. -/
def mkBrakeZone (brake speed distance : List ℚ) (zone_start i : ℕ) :
    Except String BrakeZone :=
  let zone_data := (brake.take i).drop zone_start
  let speed_data := (speed.take i).drop zone_start
  match pyIdx distance zone_start with
  | Except.error e => Except.error e
  | Except.ok ds =>
    match pyIdx distance (i - 1) with
    | Except.error e => Except.error e
    | Except.ok de =>
      Except.ok
        { startDistance := ds
          endDistance := de
          peakBrakeForce := npMax zone_data
          avgBrakeForce := npMean zone_data
          speedLoss := if speed_data.isEmpty then 0
            else speed_data.headD 0 - speed_data.getLastD 0
          duration := (zone_data.length : ℚ) / 100 }

/-- The `for i in range(len(brake))` scan of source lines 513-530.  `rem` is
`brake.drop i`; the head of `rem` is `brake[i]`, always in bounds in Python
because `i < len(brake)`.  A zone is closed when `brake[i] <= 10` while in a
zone, and its record (with the fallible `distance` lookups) is only built
when the zone is longer than 5 samples. -/
def brakeZoneScan (brake speed distance : List ℚ) :
    List ℚ → ℕ → Bool → ℕ → List BrakeZone → Except String (List BrakeZone)
  | [], _, _, _, acc => Except.ok acc
  | b :: rest, i, in_brake_zone, zone_start, acc =>
    if 10 < b ∧ in_brake_zone = false then
      brakeZoneScan brake speed distance rest (i + 1) true i acc
    else if b ≤ 10 ∧ in_brake_zone = true then
      let zone_data := (brake.take i).drop zone_start
      if 5 < zone_data.length then
        match mkBrakeZone brake speed distance zone_start i with
        | Except.error e => Except.error e
        | Except.ok z =>
          brakeZoneScan brake speed distance rest (i + 1) false zone_start (acc ++ [z])
      else brakeZoneScan brake speed distance rest (i + 1) false zone_start acc
    else brakeZoneScan brake speed distance rest (i + 1) in_brake_zone zone_start acc

/-- Output record of `get_brake_analysis`. -/
structure BrakeAnalysis where
  brakeZones : List BrakeZone
  totalBrakeTimePercent : ℚ
  avgBrakeForce : ℚ
deriving DecidableEq

/-- `get_brake_analysis`, source lines 495-544: the zone scan, the first-10
cap `brake_zones[:10]`, and the overall aggregates. -/
def get_brake_analysis (brake speed distance : List ℚ) :
    Except String BrakeAnalysis :=
  match brakeZoneScan brake speed distance brake 0 false 0 [] with
  | Except.error e => Except.error e
  | Except.ok brake_zones =>
    Except.ok
      { brakeZones := brake_zones.take 10
        totalBrakeTimePercent :=
          if brake.isEmpty then 0
          else ((brake.filter fun b => decide (0 < b)).length : ℚ) / brake.length * 100
        avgBrakeForce :=
          if brake.any fun b => decide (0 < b) then npMean (brake.filter fun b => decide (0 < b))
          else 0 }

/-! ## Corner detector (`get_corner_analysis`) -/

/-- `brakePoint` sub-record of a corner. -/
structure BrakePoint where
  distance : ℚ
  speed : ℚ
  brakeForce : ℚ
deriving DecidableEq

/-- `apex` sub-record of a corner. -/
structure ApexPoint where
  distance : ℚ
  minSpeed : ℚ
deriving DecidableEq

/-- `exit` sub-record of a corner. -/
structure ExitPoint where
  distance : ℚ
  speed : ℚ
  throttle : ℚ
deriving DecidableEq

/-- One corner event. -/
structure Corner where
  cornerNumber : ℕ
  brakePoint : BrakePoint
  apex : ApexPoint
  exit : ExitPoint
  speedDelta : ℚ
  type : String
deriving DecidableEq

/-- Brake-point lookback, source lines 392-396: scan `j` forward over
`range(max(0, i-35), i)`; the first `j` with `brake[j] > 25` wins
(`break`), the fallback is `i` itself.  `brake[j]` can raise when the
`Brake` channel is shorter than the scan window. -/
def brakePointGo (brake : List ℚ) (i : ℕ) : List ℕ → Except String ℕ
  | [] => Except.ok i
  | j :: rest =>
    match pyIdx brake j with
    | Except.error e => Except.error e
    | Except.ok b => if 25 < b then Except.ok j else brakePointGo brake i rest

/-- The brake-point index for a candidate at scan index `i`:
iterate over `range(max(0, i-35), i)` (in `ℕ`, `i - 35` is already clamped
at `0`, and the range has `min i 35` elements). -/
def brakePointIdx (brake : List ℚ) (i : ℕ) : Except String ℕ :=
  brakePointGo brake i (List.range' (i - 35) (min i 35))

/-- Apex search, source lines 399-404: over `range(i, min(i+40, len(speed)))`
track the index of the strictly smallest speed seen so far (ties keep the
earlier index), starting from `(i, speed[i])`.  All indices are below
`len(speed)`, so the lookups cannot raise. -/
def apexFrom (speed : List ℚ) (i : ℕ) : ℕ × ℚ :=
  (List.range' i (min (i + 40) speed.length - i)).foldl
    (fun p j => if speed.getD j 0 < p.2 then (j, speed.getD j 0) else p)
    (i, speed.getD i 0)

/-- Exit search, source lines 407-411: first `j` in
`range(apex_idx, min(apex_idx+40, len(speed)))` with `throttle[j] > 60`
and `speed[j] > speed[apex_idx] + 15`; fallback `apex_idx`.
`throttle[j]` can raise. -/
def exitGo (speed throttle : List ℚ) (apex_idx : ℕ) : List ℕ → Except String ℕ
  | [] => Except.ok apex_idx
  | j :: rest =>
    match pyIdx throttle j with
    | Except.error e => Except.error e
    | Except.ok t =>
      if 60 < t ∧ speed.getD apex_idx 0 + 15 < speed.getD j 0 then Except.ok j
      else exitGo speed throttle apex_idx rest

/-- Exit index for a corner whose apex is `apex_idx`. -/
def exitIdx (speed throttle : List ℚ) (apex_idx : ℕ) : Except String ℕ :=
  exitGo speed throttle apex_idx
    (List.range' apex_idx (min (apex_idx + 40) speed.length - apex_idx))

/-- The corner record built at source lines 418-436 once
`speed_delta > 25`, together with the fallible channel lookups it performs. -/
def mkCorner (speed distance brake throttle : List ℚ)
    (n bp_idx apex_idx exit_idx : ℕ) (apex_speed : ℚ) : Except String Corner :=
  match pyIdx distance bp_idx with
  | Except.error e => Except.error e
  | Except.ok d_bp =>
  match pyIdx brake bp_idx with
  | Except.error e => Except.error e
  | Except.ok b_bp =>
  match pyIdx distance apex_idx with
  | Except.error e => Except.error e
  | Except.ok d_ap =>
  match pyIdx distance exit_idx with
  | Except.error e => Except.error e
  | Except.ok d_ex =>
  match pyIdx throttle exit_idx with
  | Except.error e => Except.error e
  | Except.ok t_ex =>
    Except.ok
      { cornerNumber := n
        brakePoint :=
          { distance := d_bp, speed := speed.getD bp_idx 0, brakeForce := b_bp }
        apex := { distance := d_ap, minSpeed := apex_speed }
        exit := { distance := d_ex, speed := speed.getD exit_idx 0, throttle := t_ex }
        speedDelta := speed.getD bp_idx 0 - apex_speed
        type := if apex_speed < 100 then "slow"
          else if apex_speed < 180 then "medium" else "fast" }

/-- The `while i < len(speed) - 40` scan of source lines 374-445, with scan
cursor `i`, `last_corner_dist` and the accumulated corner list as state.
The cursor strictly increases on every iteration (`i += 1`, `i += 5`, or
`i = exit_idx + 20` with `exit_idx ≥ i`), so the `speed.length` iterations
of fuel supplied by `get_corner_analysis` (one list element per iteration)
are never exhausted and the empty-fuel branch is unreachable. -/
def cornerScanGo (speed distance brake throttle : List ℚ) :
    List ℚ → ℕ → ℚ → List Corner → Except String (List Corner)
  | [], _, _, acc => Except.ok acc
  | _ :: fuel, i, last_corner_dist, acc =>
    if i + 40 < speed.length then
      if 20 < i then
        let speed_before := npMean ((speed.take i).drop (i - 10))
        let speed_at := speed.getD i 0
        if 40 < speed_before - speed_at then
          match pyIdx distance i with
          | Except.error e => Except.error e
          | Except.ok d_i =>
            if 150 < d_i - last_corner_dist then
              match brakePointIdx brake i with
              | Except.error e => Except.error e
              | Except.ok bp_idx =>
                let ap := apexFrom speed i
                match exitIdx speed throttle ap.1 with
                | Except.error e => Except.error e
                | Except.ok exit_idx =>
                  let speed_delta := speed.getD bp_idx 0 - ap.2
                  if 25 < speed_delta then
                    match mkCorner speed distance brake throttle
                        (acc.length + 1) bp_idx ap.1 exit_idx ap.2 with
                    | Except.error e => Except.error e
                    | Except.ok c =>
                      cornerScanGo speed distance brake throttle fuel
                        (exit_idx + 20) c.apex.distance (acc ++ [c])
                  else
                    cornerScanGo speed distance brake throttle fuel
                      (i + 5) last_corner_dist acc
            else
              cornerScanGo speed distance brake throttle fuel
                (i + 5) last_corner_dist acc
        else
          cornerScanGo speed distance brake throttle fuel
            (i + 5) last_corner_dist acc
      else
        cornerScanGo speed distance brake throttle fuel
          (i + 1) last_corner_dist acc
    else Except.ok acc

/-- `get_corner_analysis`, source lines 357-453: the corner list for one
lap's channels.  Initial state `i = 30`, `last_corner_dist = -150`
(`-min_corner_distance`). -/
def get_corner_analysis (speed distance brake throttle : List ℚ) :
    Except String (List Corner) :=
  cornerScanGo speed distance brake throttle speed 30 (-150) []

/-! ## Throttle analyzer (`get_throttle_trace`) -/

/-- One throttle application point. -/
structure ThrottlePoint where
  distance : ℚ
  throttleLevel : ℚ
deriving DecidableEq

/-- Output record of `get_throttle_trace`. -/
structure ThrottleTrace where
  fullThrottlePct : ℚ
  partialThrottlePct : ℚ
  coastPct : ℚ
  throttleApplicationPoints : List ThrottlePoint
deriving DecidableEq

/-- The `for i in range(1, len(throttle) - 1)` loop of source lines 565-570:
collect a point at every upward crossing `throttle[i-1] < 50 ≤ throttle[i]`.
`distance[i]` can raise. -/
def throttlePointsGo (throttle distance : List ℚ) :
    List ℕ → List ThrottlePoint → Except String (List ThrottlePoint)
  | [], acc => Except.ok acc
  | i :: rest, acc =>
    if throttle.getD (i - 1) 0 < 50 ∧ 50 ≤ throttle.getD i 0 then
      match pyIdx distance i with
      | Except.error e => Except.error e
      | Except.ok d =>
        throttlePointsGo throttle distance rest (acc ++ [⟨d, throttle.getD i 0⟩])
    else throttlePointsGo throttle distance rest acc

/-- `get_throttle_trace`, source lines 546-581.  `range(1, len(throttle)-1)`
has `len(throttle) - 2` elements; the application-point list is capped by
`throttle_points[:15]`. -/
def get_throttle_trace (throttle distance : List ℚ) : Except String ThrottleTrace :=
  match throttlePointsGo throttle distance
      (List.range' 1 (throttle.length - 2)) [] with
  | Except.error e => Except.error e
  | Except.ok throttle_points =>
    Except.ok
      { fullThrottlePct := if throttle.isEmpty then 0
          else ((throttle.filter fun t => decide (95 ≤ t)).length : ℚ) / throttle.length * 100
        partialThrottlePct := if throttle.isEmpty then 0
          else ((throttle.filter fun t => decide (20 < t ∧ t < 95)).length : ℚ) / throttle.length * 100
        coastPct := if throttle.isEmpty then 0
          else ((throttle.filter fun t => decide (t ≤ 20)).length : ℚ) / throttle.length * 100
        throttleApplicationPoints := throttle_points.take 15 }

/-! ## Tire degradation / stint analyzer (`get_tire_degradation`) -/

/-- Python's `str.upper()` on the ASCII compound names, written through the
character list (extensionally the same map over the characters as
`String.toUpper`, but kernel-computable). -/
def pyUpper (s : String) : String := String.mk (s.data.map Char.toUpper)

/-- One lap row as consumed by the cross-lap analyzers: lap number, lap time
(`None` when `LapTime` is NA) and tire compound (`None` when NA). -/
structure Lap where
  lapNumber : ℕ
  lapTime : Option ℚ
  compound : Option String
deriving DecidableEq

/-- One tire stint as serialized by the source. -/
structure Stint where
  compound : Option String
  laps : List (ℕ × ℚ)
  avgLapTime : ℚ
  degradation : ℚ
deriving DecidableEq

/-- `calculate_degradation`, source lines 299-305. -/
def calculate_degradation (stint_laps : List (ℕ × ℚ)) : ℚ :=
  if stint_laps.length < 3 then 0
  else ((stint_laps.map Prod.snd).getLastD 0 - (stint_laps.map Prod.snd).headD 0) /
    stint_laps.length

/-- The stint dictionary appended at source lines 270-275 and 285-290. -/
def mkStint (compound : Option String) (stint_laps : List (ℕ × ℚ)) : Stint :=
  { compound := compound
    laps := stint_laps
    avgLapTime := npMean (stint_laps.map Prod.snd)
    degradation := calculate_degradation stint_laps }

/-- The lap loop of `get_tire_degradation`, source lines 260-290: laps with
a missing compound or lap time are skipped; a compound change closes the
current stint (if non-empty) and opens a new one. -/
def tireStintsGo : List Lap → Option String → List (ℕ × ℚ) → List Stint → List Stint
  | [], current_compound, stint_laps, acc =>
    if stint_laps.isEmpty then acc else acc ++ [mkStint current_compound stint_laps]
  | lap :: rest, current_compound, stint_laps, acc =>
    match lap.compound, lap.lapTime with
    | some comp0, some t =>
      let compound := pyUpper comp0
      if some compound ≠ current_compound then
        let acc2 := if stint_laps.isEmpty then acc
          else acc ++ [mkStint current_compound stint_laps]
        tireStintsGo rest (some compound) [(lap.lapNumber, t)] acc2
      else tireStintsGo rest current_compound (stint_laps ++ [(lap.lapNumber, t)]) acc
    | _, _ => tireStintsGo rest current_compound stint_laps acc

/-- `get_tire_degradation`, source lines 252-297, restricted to the stint
list it computes for one driver's ordered laps. -/
def get_tire_degradation (laps : List Lap) : List Stint :=
  tireStintsGo laps none [] []

/-! ## Fuel-effect analyzer (`get_fuel_effect`) -/

/-- The two shapes of dictionary `get_fuel_effect` returns: fewer than 5
valid laps gives `{'fuelEffect': 0}`; otherwise
`{'fuelEffectPerLap': slope, 'totalFuelEffect': slope * len(lap_times)}`. -/
inductive FuelEffect where
  | insufficient (fuelEffect : ℚ)
  | fitted (fuelEffectPerLap totalFuelEffect : ℚ)
deriving DecidableEq

/-- `Σ x` over the (lap number, lap time) pairs. -/
def sumX (pts : List (ℕ × ℚ)) : ℚ := (pts.map fun p => (p.1 : ℚ)).sum

/-- `Σ y`. -/
def sumY (pts : List (ℕ × ℚ)) : ℚ := (pts.map fun p => p.2).sum

/-- `Σ x²`. -/
def sumXX (pts : List (ℕ × ℚ)) : ℚ := (pts.map fun p => (p.1 : ℚ) * (p.1 : ℚ)).sum

/-- `Σ x·y`. -/
def sumXY (pts : List (ℕ × ℚ)) : ℚ := (pts.map fun p => (p.1 : ℚ) * p.2).sum

/-- Determinant of the degree-1 normal equations, `n·Σx² - (Σx)²`;
non-zero exactly when the lap numbers are not all equal. -/
def lsqDen (pts : List (ℕ × ℚ)) : ℚ :=
  (pts.length : ℚ) * sumXX pts - sumX pts * sumX pts

/-- Slope of the first-degree least-squares fit of lap time against lap
number — the first coefficient of `np.polyfit(lap_numbers, lap_times, 1)`. -/
def lsqSlope (pts : List (ℕ × ℚ)) : ℚ :=
  ((pts.length : ℚ) * sumXY pts - sumX pts * sumY pts) / lsqDen pts

/-- Intercept of the same fit. -/
def lsqIntercept (pts : List (ℕ × ℚ)) : ℚ :=
  (sumY pts - lsqSlope pts * sumX pts) / (pts.length : ℚ)

/-- Sum of squared residuals of the affine model `y = a·x + b` on the
given points. -/
def sqError (pts : List (ℕ × ℚ)) (a b : ℚ) : ℚ :=
  (pts.map fun p => (p.2 - (a * (p.1 : ℚ) + b)) * (p.2 - (a * (p.1 : ℚ) + b))).sum

/-- The valid (lap number, lap time) pairs of a driver
(`dropna(subset=['LapTime'])`). -/
def validPairs (laps : List Lap) : List (ℕ × ℚ) :=
  laps.filterMap fun l => match l.lapTime with
    | some t => some (l.lapNumber, t)
    | none => none

/-- `get_fuel_effect`, source lines 608-636: fewer than 5 valid laps
short-circuits to zero effect; otherwise the `np.polyfit(..., 1)` slope
(the `len(lap_times) > 1` guard is kept although it is subsumed). -/
def get_fuel_effect (laps : List Lap) : FuelEffect :=
  let valid := validPairs laps
  if valid.length < 5 then FuelEffect.insufficient 0
  else
    let fuel_effect_per_lap := if 1 < valid.length then lsqSlope valid else 0
    FuelEffect.fitted fuel_effect_per_lap (fuel_effect_per_lap * valid.length)

/-! ## Race-pace aggregator (`get_race_pace`) -/

/-- One entry of `paceComparison`. -/
structure PaceEntry where
  driver : String
  avgPace : ℚ
  medianPace : ℚ
  bestPace : ℚ
  totalLaps : ℕ
deriving DecidableEq

/-- The pace entry built for one driver from their valid lap times. -/
def mkPaceEntry (driver : String) (valid : List ℚ) : PaceEntry :=
  { driver := driver
    avgPace := npMean valid
    medianPace := pdMedian valid
    bestPace := pdMin valid
    totalLaps := valid.length }

/-- The driver loop of `get_race_pace`, source lines 334-351: a driver
whose valid-lap list is empty is skipped without appending anything. -/
def racePaceGo : List (String × List (Option ℚ)) → List PaceEntry → List PaceEntry
  | [], pace_data => pace_data
  | (driver, laps) :: rest, pace_data =>
    let valid := laps.filterMap id
    if valid.isEmpty then racePaceGo rest pace_data
    else racePaceGo rest (pace_data ++ [mkPaceEntry driver valid])

/-- `get_race_pace`, source lines 328-355, on the requested drivers (in
request order), each paired with the lap times of their session laps
(`None` = NA `LapTime`). -/
def get_race_pace (drivers : List (String × List (Option ℚ))) : List PaceEntry :=
  racePaceGo drivers []

/-! ## Spec-side definitions, following the spec's words -/

/-- The claim's brake-point rule: the *last* index in `[i-35, i)` with
`brake > 25`, else `i` itself. -/
def lastBrakeIdx (brake : List ℚ) (i : ℕ) : ℕ :=
  (((List.range' (i - 35) (min i 35)).filter fun j =>
    decide (25 < brake.getD j 0)).getLast?).getD i

/-- The amended brake-point rule: the *first* index in `[max(0,i-35), i)`
with `brake > 25`, else `i` itself. -/
def firstBrakeIdx (brake : List ℚ) (i : ℕ) : ℕ :=
  ((List.range' (i - 35) (min i 35)).find? fun j =>
    decide (25 < brake.getD j 0)).getD i

/-- Maximal contiguous runs with `brake > 10`, as `(start index, length)`
pairs in scan order, including a run still open at the end of the series.
`p` is the absolute index of the head of the remaining list and `cur` the
start of the currently open run, if any. -/
def brakeRunsGo : List ℚ → ℕ → Option ℕ → List (ℕ × ℕ)
  | [], p, some s => [(s, p - s)]
  | [], _, none => []
  | b :: rest, p, cur =>
    if 10 < b then brakeRunsGo rest (p + 1) (some (cur.getD p))
    else
      match cur with
      | some s => (s, p - s) :: brakeRunsGo rest (p + 1) none
      | none => brakeRunsGo rest (p + 1) none

/-- The maximal contiguous runs with `brake > 10` of a brake series. -/
def brakeRuns (brake : List ℚ) : List (ℕ × ℕ) := brakeRunsGo brake 0 none

/-- The zone record the spec predicts for the run `(s, len)` (closed at
index `i = s + len`), written with total lookups; coincides with
`mkBrakeZone` on co-indexed channels. -/
def specZone (brake speed distance : List ℚ) (r : ℕ × ℕ) : BrakeZone :=
  let i := r.1 + r.2
  let zone_data := (brake.take i).drop r.1
  let speed_data := (speed.take i).drop r.1
  { startDistance := distance.getD r.1 0
    endDistance := distance.getD (i - 1) 0
    peakBrakeForce := npMax zone_data
    avgBrakeForce := npMean zone_data
    speedLoss := if speed_data.isEmpty then 0
      else speed_data.headD 0 - speed_data.getLastD 0
    duration := (zone_data.length : ℚ) / 100 }

/-- The brake zones the claim as stated predicts: all maximal runs of at
least 5 samples (wherever they end), first 10. -/
def claimBrakeZones (brake speed distance : List ℚ) : List BrakeZone :=
  (((brakeRuns brake).filter fun r => decide (5 ≤ r.2)).map
    (specZone brake speed distance)).take 10

/-- The throttle application points produced by the upward crossings with
index in `range' 1 hi`, capped at 15.  The claim as stated takes
`hi = len - 1` (every crossing index); the code reaches only
`hi = len - 2`. -/
def specThrottlePoints (throttle distance : List ℚ) (hi : ℕ) : List ThrottlePoint :=
  (((List.range' 1 hi).filter fun i =>
      decide (throttle.getD (i - 1) 0 < 50 ∧ 50 ≤ throttle.getD i 0)).map
    fun i => ThrottlePoint.mk (distance.getD i 0) (throttle.getD i 0)).take 15

/-- The retained laps of a driver: compound and lap time both present,
compound upper-cased, in lap order. -/
def retainedLaps (laps : List Lap) : List (String × ℕ × ℚ) :=
  laps.filterMap fun l => match l.compound, l.lapTime with
    | some c, some t => some (pyUpper c, l.lapNumber, t)
    | _, _ => none

/-- Grouping of the retained laps into maximal runs of one compound,
carrying the currently open group. -/
def stintGroupsGo :
    List (String × ℕ × ℚ) → Option (String × List (ℕ × ℚ)) →
      List (String × List (ℕ × ℚ))
  | [], none => []
  | [], some g => [g]
  | (c, n, t) :: rest, none => stintGroupsGo rest (some (c, [(n, t)]))
  | (c, n, t) :: rest, some (c', ls) =>
    if c = c' then stintGroupsGo rest (some (c', ls ++ [(n, t)]))
    else (c', ls) :: stintGroupsGo rest (some (c, [(n, t)]))

/-- The maximal runs of consecutive retained laps on one compound. -/
def stintGroups (pts : List (String × ℕ × ℚ)) : List (String × List (ℕ × ℚ)) :=
  stintGroupsGo pts none

/-! ## Energy / PU-stress estimator (`energy-analysis` command) -/

/-- Output record of the `energy-analysis` command. -/
structure EnergyAnalysis where
  fullThrottlePct : ℚ
  liftAndCoastPct : ℚ
  estimatedBrakeEnergy : ℚ
  estimatedEnergyRecovery : ℚ
  efficiencyScore : ℚ
  ersDeployment : String
  puStress : ℚ
  fuelEfficiency : ℚ
deriving DecidableEq

/-- The `energy-analysis` branch of `main`, source lines 842-868.
`np.sum(brake * speed)` is the elementwise product, which on co-indexed
channels is the sum over the zipped lists. -/
def energy_analysis (throttle brake speed : List ℚ) : EnergyAnalysis :=
  let full_throttle_pct := if throttle.isEmpty then 0
    else ((throttle.filter fun t => decide (95 ≤ t)).length : ℚ) / throttle.length * 100
  let lift_coast_pct := if throttle.isEmpty then 0
    else ((throttle.filter fun t => decide (t ≤ 20)).length : ℚ) / throttle.length * 100
  let brake_energy := if ¬ brake.isEmpty ∧ ¬ speed.isEmpty then
      ((brake.zip speed).map fun p => p.1 * p.2).sum / 1000
    else 0
  let energy_recovery := brake_energy * 0.65
  let pu_stress := min 100 (full_throttle_pct * 0.8 + (100 - lift_coast_pct) * 0.2)
  let fuel_efficiency := 0.8 + lift_coast_pct / 100 * 0.3
  let efficiency_score := (100 - lift_coast_pct) * 0.6 + energy_recovery / 100 * 0.4
  { fullThrottlePct := full_throttle_pct
    liftAndCoastPct := lift_coast_pct
    estimatedBrakeEnergy := brake_energy
    estimatedEnergyRecovery := energy_recovery
    efficiencyScore := min 100 (max 0 efficiency_score)
    ersDeployment := if 70 < full_throttle_pct then "high"
      else if 50 < full_throttle_pct then "medium" else "low"
    puStress := pu_stress
    fuelEfficiency := fuel_efficiency }

/-! ## Projections and statement helpers -/

/-- The corner list of a corner-analysis result, empty on failure. -/
def cornersOf : Except String (List Corner) → List Corner
  | Except.ok cs => cs
  | Except.error _ => []

/-- The aerodynamic efficiency of a downforce result, `0` on failure. -/
def aeroOf : Except String DownforceAnalysis → ℚ
  | Except.ok r => r.aerodynamicEfficiency
  | Except.error _ => 0

/-- Sequential numbering from 1, as the spec states it. -/
def Numbered (cs : List Corner) : Prop :=
  ∀ k (h : k < cs.length), (cs.get ⟨k, h⟩).cornerNumber = k + 1

/-- The pending open group corresponding to the loop state
(`current_compound`, `stint_laps`). -/
def pendingOf (cur : Option String) (sl : List (ℕ × ℚ)) :
    Option (String × List (ℕ × ℚ)) :=
  if sl.isEmpty then none else cur.map fun c => (c, sl)

/-! ## Concrete inputs used by the witnesses and counterexamples -/

/-- A lap whose `Speed` channel shows a big drop (100 for 30 samples, then
0) while every other channel is missing (extracted as the empty array). -/
def exMissingSpeed : List ℚ :=
  [100, 100, 100, 100, 100, 100, 100, 100, 100, 100, 100, 100, 100, 100,
   100, 100, 100, 100, 100, 100, 100, 100, 100, 100, 100, 100, 100, 100,
   100, 100, 0, 0, 0, 0, 0, 0, 0, 0, 0, 0, 0, 0, 0, 0, 0, 0, 0, 0, 0, 0,
   0, 0, 0, 0, 0, 0, 0, 0, 0, 0, 0, 0, 0, 0, 0, 0, 0, 0, 0, 0, 0]

/-- A 4-sample speed series making the downforce index negative. -/
def exNegSpeed : List ℚ := [0, 0, 0, 400]

/-- The spec scenario: speed constant at 200 for 100 samples. -/
def exConstSpeed : List ℚ :=
  [200, 200, 200, 200, 200, 200, 200, 200, 200, 200, 200, 200, 200, 200,
   200, 200, 200, 200, 200, 200, 200, 200, 200, 200, 200, 200, 200, 200,
   200, 200, 200, 200, 200, 200, 200, 200, 200, 200, 200, 200, 200, 200,
   200, 200, 200, 200, 200, 200, 200, 200, 200, 200, 200, 200, 200, 200,
   200, 200, 200, 200, 200, 200, 200, 200, 200, 200, 200, 200, 200, 200,
   200, 200, 200, 200, 200, 200, 200, 200, 200, 200, 200, 200, 200, 200,
   200, 200, 200, 200, 200, 200, 200, 200, 200, 200, 200, 200, 200, 200,
   200, 200]

/-- All-zero channel of 100 samples (brake and throttle of the scenario). -/
def exZero100 : List ℚ :=
  [0, 0, 0, 0, 0, 0, 0, 0, 0, 0, 0, 0, 0, 0, 0, 0, 0, 0, 0, 0, 0, 0, 0, 0,
   0, 0, 0, 0, 0, 0, 0, 0, 0, 0, 0, 0, 0, 0, 0, 0, 0, 0, 0, 0, 0, 0, 0, 0,
   0, 0, 0, 0, 0, 0, 0, 0, 0, 0, 0, 0, 0, 0, 0, 0, 0, 0, 0, 0, 0, 0, 0, 0,
   0, 0, 0, 0, 0, 0, 0, 0, 0, 0, 0, 0, 0, 0, 0, 0, 0, 0, 0, 0, 0, 0, 0, 0,
   0, 0, 0, 0]

/-- A non-decreasing 100-sample distance channel `0, 1, ..., 99`. -/
def exDist100 : List ℚ :=
  [0, 1, 2, 3, 4, 5, 6, 7, 8, 9, 10, 11, 12, 13, 14, 15, 16, 17, 18, 19, 20,
   21, 22, 23, 24, 25, 26, 27, 28, 29, 30, 31, 32, 33, 34, 35, 36, 37, 38,
   39, 40, 41, 42, 43, 44, 45, 46, 47, 48, 49, 50, 51, 52, 53, 54, 55, 56,
   57, 58, 59, 60, 61, 62, 63, 64, 65, 66, 67, 68, 69, 70, 71, 72, 73, 74,
   75, 76, 77, 78, 79, 80, 81, 82, 83, 84, 85, 86, 87, 88, 89, 90, 91, 92,
   93, 94, 95, 96, 97, 98, 99]

/-- 71-sample speed: 200 for the first 30 samples, then 100. -/
def exSpeed71 : List ℚ :=
  [200, 200, 200, 200, 200, 200, 200, 200, 200, 200, 200, 200, 200, 200,
   200, 200, 200, 200, 200, 200, 200, 200, 200, 200, 200, 200, 200, 200,
   200, 200, 100, 100, 100, 100, 100, 100, 100, 100, 100, 100, 100, 100,
   100, 100, 100, 100, 100, 100, 100, 100, 100, 100, 100, 100, 100, 100,
   100, 100, 100, 100, 100, 100, 100, 100, 100, 100, 100, 100, 100, 100,
   100]

/-- 71-sample distance `0, 1, ..., 70` (strictly increasing). -/
def exDist71 : List ℚ :=
  [0, 1, 2, 3, 4, 5, 6, 7, 8, 9, 10, 11, 12, 13, 14, 15, 16, 17, 18, 19, 20,
   21, 22, 23, 24, 25, 26, 27, 28, 29, 30, 31, 32, 33, 34, 35, 36, 37, 38,
   39, 40, 41, 42, 43, 44, 45, 46, 47, 48, 49, 50, 51, 52, 53, 54, 55, 56,
   57, 58, 59, 60, 61, 62, 63, 64, 65, 66, 67, 68, 69, 70]

/-- 71-sample brake: 100 at indices 5 and 20, otherwise 0 — two brake
applications inside the lookback window of the corner detected at `i = 30`. -/
def exBrake71 : List ℚ :=
  [0, 0, 0, 0, 0, 100, 0, 0, 0, 0, 0, 0, 0, 0, 0, 0, 0, 0, 0, 0, 100, 0, 0,
   0, 0, 0, 0, 0, 0, 0, 0, 0, 0, 0, 0, 0, 0, 0, 0, 0, 0, 0, 0, 0, 0, 0, 0,
   0, 0, 0, 0, 0, 0, 0, 0, 0, 0, 0, 0, 0, 0, 0, 0, 0, 0, 0, 0, 0, 0, 0, 0]

/-- 71-sample all-zero throttle. -/
def exThr71 : List ℚ :=
  [0, 0, 0, 0, 0, 0, 0, 0, 0, 0, 0, 0, 0, 0, 0, 0, 0, 0, 0, 0, 0, 0, 0, 0,
   0, 0, 0, 0, 0, 0, 0, 0, 0, 0, 0, 0, 0, 0, 0, 0, 0, 0, 0, 0, 0, 0, 0, 0,
   0, 0, 0, 0, 0, 0, 0, 0, 0, 0, 0, 0, 0, 0, 0, 0, 0, 0, 0, 0, 0, 0, 0]

/-- A brake series with one maximal run of exactly 5 samples above 10,
closed before the end of the series. -/
def exBrake5 : List ℚ := [11, 11, 11, 11, 11, 0]

/-- Speed/distance co-indexed with `exBrake5`. -/
def exSix : List ℚ := [0, 1, 2, 3, 4, 5]

/-- Brake `[0,20,20,20,20,20,20,0]`: one maximal run of 6 samples at
indices 1-6, closed at index 7. -/
def exBrake8 : List ℚ := [0, 20, 20, 20, 20, 20, 20, 0]

/-- Speed/distance co-indexed with `exBrake8`. -/
def exEight : List ℚ := [0, 1, 2, 3, 4, 5, 6, 7]

/-- A throttle series whose only upward crossing is at the last index. -/
def exThrLast : List ℚ := [0, 60]

/-- Distance co-indexed with `exThrLast`. -/
def exTwo : List ℚ := [0, 1]

/-- The scenario lap list: 5 SOFT laps then 5 MEDIUM laps with increasing
lap times. -/
def exStintLaps : List Lap :=
  [⟨1, some 90, some "SOFT"⟩, ⟨2, some 91, some "SOFT"⟩, ⟨3, some 92, some "SOFT"⟩,
   ⟨4, some 93, some "SOFT"⟩, ⟨5, some 94, some "SOFT"⟩,
   ⟨6, some 95, some "MEDIUM"⟩, ⟨7, some 96, some "MEDIUM"⟩, ⟨8, some 97, some "MEDIUM"⟩,
   ⟨9, some 98, some "MEDIUM"⟩, ⟨10, some 99, some "MEDIUM"⟩]

/-- The SOFT stint of the scenario: laps 1-5, average 92,
degradation `(94 - 90) / 5`. -/
def exStintSoft : Stint :=
  ⟨some "SOFT", [(1, 90), (2, 91), (3, 92), (4, 93), (5, 94)], 92, 4 / 5⟩

/-- The MEDIUM stint of the scenario: laps 6-10, average 97,
degradation `(99 - 95) / 5`. -/
def exStintMedium : Stint :=
  ⟨some "MEDIUM", [(6, 95), (7, 96), (8, 97), (9, 98), (10, 99)], 97, 4 / 5⟩

/-- Five valid laps with lap time `89 + lap number`: the least-squares
slope is exactly 1. -/
def exFuelLaps : List Lap :=
  [⟨1, some 90, none⟩, ⟨2, some 91, none⟩, ⟨3, some 92, none⟩,
   ⟨4, some 93, none⟩, ⟨5, some 94, none⟩]

/-- A race-pace request: one driver with three valid laps, one driver with
no valid lap, one driver with two valid laps. -/
def exPaceDrivers : List (String × List (Option ℚ)) :=
  [("VER", [some 80, some 82, some 81]),
   ("LEC", [none, none]),
   ("HAM", [some 84, some 83])]

/-- The single corner the detector reports on
`exSpeed71/exDist71/exBrake71/exThr71`: detected at scan index 30, brake
point taken at index 5 (the first lookback match), apex and exit at
index 30. -/
def exCorner71 : Corner :=
  { cornerNumber := 1
    brakePoint := { distance := 5, speed := 200, brakeForce := 100 }
    apex := { distance := 30, minSpeed := 100 }
    exit := { distance := 30, speed := 100, throttle := 0 }
    speedDelta := 100
    type := "medium" }

/-! # Theorems -/

/-! ## Generic facts about the embedding primitives -/

lemma pyIdx_ok {l : List ℚ} {i : ℕ} {v : ℚ} (h : pyIdx l i = Except.ok v) :
    i < l.length ∧ l.getD i 0 = v := by
  unfold pyIdx at h
  cases hx : l[i]? with
  | none => rw [hx] at h; cases h
  | some w =>
    rw [hx] at h
    injection h with hwv
    subst hwv
    obtain ⟨hlt, hval⟩ := List.getElem?_eq_some.mp hx
    refine ⟨hlt, ?_⟩
    rw [List.getD_eq_getElem?_getD, hx]
    rfl

lemma pyIdx_lt {l : List ℚ} {i : ℕ} (h : i < l.length) :
    pyIdx l i = Except.ok (l.getD i 0) := by
  unfold pyIdx
  rw [List.getElem?_eq_getElem h, List.getD_eq_getElem l 0 h]

/-! ## Step lemmas for the corner-detector scan

Each lemma captures one branch of the `while` loop body, so that both the
symbolic invariant proof and the concrete evaluations can advance the scan
one iteration at a time. -/

lemma cornerScanGo_halt {speed distance brake throttle : List ℚ}
    {fuel : List ℚ} {i : ℕ} {last : ℚ} {acc : List Corner}
    (h1 : ¬ i + 40 < speed.length) :
    cornerScanGo speed distance brake throttle fuel i last acc =
      Except.ok acc := by
  cases fuel with
  | nil => rfl
  | cons x fuel => simp only [cornerScanGo, if_neg h1]

lemma cornerScanGo_warm {speed distance brake throttle : List ℚ} {x : ℚ}
    {fuel : List ℚ} {i : ℕ} {last : ℚ} {acc : List Corner}
    (h1 : i + 40 < speed.length) (h2 : ¬ 20 < i) :
    cornerScanGo speed distance brake throttle (x :: fuel) i last acc =
      cornerScanGo speed distance brake throttle fuel (i + 1) last acc := by
  simp only [cornerScanGo, if_pos h1, if_neg h2]

lemma cornerScanGo_nodrop {speed distance brake throttle : List ℚ} {x : ℚ}
    {fuel : List ℚ} {i : ℕ} {last : ℚ} {acc : List Corner}
    (h1 : i + 40 < speed.length) (h2 : 20 < i)
    (h3 : ¬ 40 < npMean ((speed.take i).drop (i - 10)) - speed.getD i 0) :
    cornerScanGo speed distance brake throttle (x :: fuel) i last acc =
      cornerScanGo speed distance brake throttle fuel (i + 5) last acc := by
  simp only [cornerScanGo, if_pos h1, if_pos h2, if_neg h3]

lemma cornerScanGo_derr {speed distance brake throttle : List ℚ} {x : ℚ}
    {fuel : List ℚ} {i : ℕ} {last : ℚ} {acc : List Corner} {e : String}
    (h1 : i + 40 < speed.length) (h2 : 20 < i)
    (h3 : 40 < npMean ((speed.take i).drop (i - 10)) - speed.getD i 0)
    (h4 : pyIdx distance i = Except.error e) :
    cornerScanGo speed distance brake throttle (x :: fuel) i last acc =
      Except.error e := by
  simp only [cornerScanGo, if_pos h1, if_pos h2, if_pos h3, h4]

lemma cornerScanGo_near {speed distance brake throttle : List ℚ} {x : ℚ}
    {fuel : List ℚ} {i : ℕ} {last : ℚ} {acc : List Corner} {d : ℚ}
    (h1 : i + 40 < speed.length) (h2 : 20 < i)
    (h3 : 40 < npMean ((speed.take i).drop (i - 10)) - speed.getD i 0)
    (h4 : pyIdx distance i = Except.ok d) (h5 : ¬ 150 < d - last) :
    cornerScanGo speed distance brake throttle (x :: fuel) i last acc =
      cornerScanGo speed distance brake throttle fuel (i + 5) last acc := by
  simp only [cornerScanGo, if_pos h1, if_pos h2, if_pos h3, h4, if_neg h5]

lemma cornerScanGo_bperr {speed distance brake throttle : List ℚ} {x : ℚ}
    {fuel : List ℚ} {i : ℕ} {last : ℚ} {acc : List Corner} {d : ℚ} {e : String}
    (h1 : i + 40 < speed.length) (h2 : 20 < i)
    (h3 : 40 < npMean ((speed.take i).drop (i - 10)) - speed.getD i 0)
    (h4 : pyIdx distance i = Except.ok d) (h5 : 150 < d - last)
    (h6 : brakePointIdx brake i = Except.error e) :
    cornerScanGo speed distance brake throttle (x :: fuel) i last acc =
      Except.error e := by
  simp only [cornerScanGo, if_pos h1, if_pos h2, if_pos h3, h4, if_pos h5, h6]

lemma cornerScanGo_exerr {speed distance brake throttle : List ℚ} {x : ℚ}
    {fuel : List ℚ} {i : ℕ} {last : ℚ} {acc : List Corner} {d : ℚ}
    {bp : ℕ} {e : String}
    (h1 : i + 40 < speed.length) (h2 : 20 < i)
    (h3 : 40 < npMean ((speed.take i).drop (i - 10)) - speed.getD i 0)
    (h4 : pyIdx distance i = Except.ok d) (h5 : 150 < d - last)
    (h6 : brakePointIdx brake i = Except.ok bp)
    (h7 : exitIdx speed throttle (apexFrom speed i).1 = Except.error e) :
    cornerScanGo speed distance brake throttle (x :: fuel) i last acc =
      Except.error e := by
  simp only [cornerScanGo, if_pos h1, if_pos h2, if_pos h3, h4, if_pos h5, h6, h7]

lemma cornerScanGo_reject {speed distance brake throttle : List ℚ} {x : ℚ}
    {fuel : List ℚ} {i : ℕ} {last : ℚ} {acc : List Corner} {d : ℚ}
    {bp ex : ℕ}
    (h1 : i + 40 < speed.length) (h2 : 20 < i)
    (h3 : 40 < npMean ((speed.take i).drop (i - 10)) - speed.getD i 0)
    (h4 : pyIdx distance i = Except.ok d) (h5 : 150 < d - last)
    (h6 : brakePointIdx brake i = Except.ok bp)
    (h7 : exitIdx speed throttle (apexFrom speed i).1 = Except.ok ex)
    (h8 : ¬ 25 < speed.getD bp 0 - (apexFrom speed i).2) :
    cornerScanGo speed distance brake throttle (x :: fuel) i last acc =
      cornerScanGo speed distance brake throttle fuel (i + 5) last acc := by
  simp only [cornerScanGo, if_pos h1, if_pos h2, if_pos h3, h4, if_pos h5, h6, h7,
    if_neg h8]

lemma cornerScanGo_mkerr {speed distance brake throttle : List ℚ} {x : ℚ}
    {fuel : List ℚ} {i : ℕ} {last : ℚ} {acc : List Corner} {d : ℚ}
    {bp ex : ℕ} {e : String}
    (h1 : i + 40 < speed.length) (h2 : 20 < i)
    (h3 : 40 < npMean ((speed.take i).drop (i - 10)) - speed.getD i 0)
    (h4 : pyIdx distance i = Except.ok d) (h5 : 150 < d - last)
    (h6 : brakePointIdx brake i = Except.ok bp)
    (h7 : exitIdx speed throttle (apexFrom speed i).1 = Except.ok ex)
    (h8 : 25 < speed.getD bp 0 - (apexFrom speed i).2)
    (h9 : mkCorner speed distance brake throttle (acc.length + 1) bp
      (apexFrom speed i).1 ex (apexFrom speed i).2 = Except.error e) :
    cornerScanGo speed distance brake throttle (x :: fuel) i last acc =
      Except.error e := by
  simp only [cornerScanGo, if_pos h1, if_pos h2, if_pos h3, h4, if_pos h5, h6, h7,
    if_pos h8, h9]

lemma cornerScanGo_accept {speed distance brake throttle : List ℚ} {x : ℚ}
    {fuel : List ℚ} {i : ℕ} {last : ℚ} {acc : List Corner} {d : ℚ}
    {bp ex : ℕ} {c : Corner}
    (h1 : i + 40 < speed.length) (h2 : 20 < i)
    (h3 : 40 < npMean ((speed.take i).drop (i - 10)) - speed.getD i 0)
    (h4 : pyIdx distance i = Except.ok d) (h5 : 150 < d - last)
    (h6 : brakePointIdx brake i = Except.ok bp)
    (h7 : exitIdx speed throttle (apexFrom speed i).1 = Except.ok ex)
    (h8 : 25 < speed.getD bp 0 - (apexFrom speed i).2)
    (h9 : mkCorner speed distance brake throttle (acc.length + 1) bp
      (apexFrom speed i).1 ex (apexFrom speed i).2 = Except.ok c) :
    cornerScanGo speed distance brake throttle (x :: fuel) i last acc =
      cornerScanGo speed distance brake throttle fuel (ex + 20)
        c.apex.distance (acc ++ [c]) := by
  simp only [cornerScanGo, if_pos h1, if_pos h2, if_pos h3, h4, if_pos h5, h6, h7,
    if_pos h8, h9]

/-! ## C1 -/

/-- C1: the claim says every detector degrades gracefully to its default
output when a telemetry channel is missing; in fact the code raises.  On a
lap whose `Speed` channel is present (71 samples with a > 40 km/h drop at
scan index 30) while `Distance`, `Brake` and `Throttle` are missing (empty),
the corner detector evaluates `distance[30]` and raises `IndexError`, which
aborts the whole request; the downforce estimator likewise raises already on
`np.percentile` of the missing speed channel. -/
theorem detectors_raise_on_missing_channels :
    get_corner_analysis exMissingSpeed [] [] [] = Except.error "IndexError" ∧
    get_downforce_analysis [] = Except.error "IndexError" := by
  constructor
  · rw [get_corner_analysis]
    simp only [exMissingSpeed]
    refine cornerScanGo_derr ?_ ?_ ?_ rfl
    · norm_num
    · norm_num
    · norm_num [npMean]
  · rfl

/-! ## C2 -/

/-- A throttle coverage percentage is non-negative. -/
lemma pct_nonneg (l : List ℚ) (p : ℚ → Bool) :
    0 ≤ (if l.isEmpty then (0:ℚ) else ((l.filter p).length : ℚ) / l.length * 100) := by
  split
  · exact le_refl 0
  · positivity

/-- A throttle coverage percentage is at most 100. -/
lemma pct_le_100 (l : List ℚ) (p : ℚ → Bool) :
    (if l.isEmpty then (0:ℚ) else ((l.filter p).length : ℚ) / l.length * 100) ≤ 100 := by
  split
  · norm_num
  · rename_i hne
    have hnil : l ≠ [] := by simpa [List.isEmpty_iff] using hne
    have hpos : 0 < (l.length : ℚ) := by
      have := List.length_pos.mpr hnil
      exact_mod_cast this
    have hle : ((l.filter p).length : ℚ) ≤ (l.length : ℚ) := by
      exact_mod_cast List.length_filter_le _ _
    have h1 : ((l.filter p).length : ℚ) / l.length ≤ 1 := (div_le_one hpos).mpr hle
    linarith

/-- C2: the claim says the downforce index, the PU stress and the efficiency
score all lie in [0,100].  The PU stress and efficiency score do (proved
below for every input), but the downforce index is only clamped from above
(`min(100, ...)` with no lower clamp, contradicting the source's own
`(0-100 scale)` comment): on the 4-sample speed series `[0, 0, 0, 400]` the
code returns a downforce index of `-190`. -/
theorem downforce_index_negative_pu_scores_bounded :
    (get_downforce_analysis exNegSpeed =
      Except.ok ⟨-190, 400, 0, 30000, 400 / 30001⟩ ∧ (-190 : ℚ) < 0) ∧
    ∀ throttle brake speed : List ℚ,
      (0 ≤ (energy_analysis throttle brake speed).puStress ∧
        (energy_analysis throttle brake speed).puStress ≤ 100) ∧
      (0 ≤ (energy_analysis throttle brake speed).efficiencyScore ∧
        (energy_analysis throttle brake speed).efficiencyScore ≤ 100) := by
  constructor
  · constructor
    · have h75 : npPercentile [0, 0, 0, 400] 75 = 100 := by
        norm_num [npPercentile, sortAsc, insertAsc, Rat.floor, Int.toNat, List.getD]
      have h25 : npPercentile [0, 0, 0, 400] 25 = 0 := by
        norm_num [npPercentile, sortAsc, insertAsc, Rat.floor, Int.toNat, List.getD]
      have hv : npVar [0, 0, 0, 400] = 30000 := by
        norm_num [npVar, npMean]
      norm_num [get_downforce_analysis, exNegSpeed, h75, h25, hv, npMean, List.filter]
    · norm_num
  · intro throttle brake speed
    have hft0 := pct_nonneg throttle (fun t => decide (95 ≤ t))
    have hlc0 := pct_nonneg throttle (fun t => decide (t ≤ 20))
    have hlc1 := pct_le_100 throttle (fun t => decide (t ≤ 20))
    simp only [energy_analysis]
    refine ⟨⟨le_min (by norm_num) (by linarith), min_le_left _ _⟩,
      ⟨le_min (by norm_num) (le_max_left _ _), min_le_left _ _⟩⟩

/-! ## C10 -/

/-- The driver loop appends exactly the entries of the requested drivers
with a non-empty valid-lap list, in request order. -/
lemma racePaceGo_eq (ds : List (String × List (Option ℚ))) :
    ∀ acc, racePaceGo ds acc =
      acc ++ (ds.filter fun e => !(e.2.filterMap id).isEmpty).map
        fun e => mkPaceEntry e.1 (e.2.filterMap id) := by
  induction ds with
  | nil => intro acc; simp [racePaceGo]
  | cons hd tl ih =>
    intro acc
    obtain ⟨driver, laps⟩ := hd
    by_cases h : (laps.filterMap id).isEmpty
    · simp [racePaceGo, h, ih]
    · simp [racePaceGo, h, ih]

/-- C10: a requested driver with no valid lap time is silently omitted from
`paceComparison` (no entry, no error), and the remaining entries are exactly
the valid drivers' entries in request order. -/
theorem race_pace_omits_invalid_drivers (drivers : List (String × List (Option ℚ))) :
    get_race_pace drivers =
      (drivers.filter fun e => !(e.2.filterMap id).isEmpty).map
        fun e => mkPaceEntry e.1 (e.2.filterMap id) := by
  rw [get_race_pace, racePaceGo_eq]
  simp

/-! ## C4 -/

/-- The brake-point lookback over any index list whose members are in
bounds returns the first match (else the fallback `i`). -/
lemma brakePointGo_eq (brake : List ℚ) (i : ℕ) :
    ∀ L : List ℕ, (∀ j ∈ L, j < brake.length) →
      brakePointGo brake i L =
        Except.ok ((L.find? fun j => decide (25 < brake.getD j 0)).getD i) := by
  intro L
  induction L with
  | nil => intro _; rfl
  | cons j rest ih =>
    intro hb
    have hj : j < brake.length := hb j (List.mem_cons_self j rest)
    by_cases h : 25 < brake.getD j 0
    · simp only [brakePointGo, pyIdx_lt hj, if_pos h, List.find?_cons,
        decide_eq_true h, Option.getD_some]
    · simp only [brakePointGo, pyIdx_lt hj, if_neg h, List.find?_cons,
        decide_eq_false h, ih fun x hx => hb x (List.mem_cons_of_mem _ hx)]

/-- C4 (amended): for a corner candidate at scan index `i` (any `i` within
the brake series), the reported brake point is the *first* index in
`[max(0, i-35), i)` with `brake > 25` — not the last — and `i` itself when
no such index exists. -/
theorem brake_point_first_match (brake : List ℚ) (i : ℕ) (h : i ≤ brake.length) :
    brakePointIdx brake i = Except.ok (firstBrakeIdx brake i) := by
  rw [brakePointIdx, firstBrakeIdx]
  apply brakePointGo_eq
  intro j hj
  rw [List.mem_range'] at hj
  omega

/-- Witness for C4 on a concrete series: brake `[0, 0, 30]`, `i = 3`; the
first (and only) match is index 2. -/
theorem brake_point_first_match_witness :
    brakePointIdx [0, 0, 30] 3 = Except.ok (firstBrakeIdx [0, 0, 30] 3) ∧
    firstBrakeIdx [0, 0, 30] 3 = 2 :=
  ⟨brake_point_first_match [0, 0, 30] 3 (by decide),
   by norm_num [firstBrakeIdx, List.range', List.find?, List.getD]⟩

set_option maxHeartbeats 1000000 in
/-- The corner detector on the 71-sample input reports exactly one corner,
with brake point at index 5. -/
lemma corner71_eval :
    get_corner_analysis exSpeed71 exDist71 exBrake71 exThr71 =
      Except.ok [exCorner71] := by
  have hapex : apexFrom exSpeed71 30 = (30, 100) := by
    norm_num [apexFrom, exSpeed71, List.range', List.getD]
  have hbp : brakePointIdx exBrake71 30 = Except.ok 5 := by
    norm_num [brakePointIdx, brakePointGo, List.range', pyIdx, exBrake71]
  have hex : exitIdx exSpeed71 exThr71 (apexFrom exSpeed71 30).1 = Except.ok 30 := by
    rw [hapex]
    norm_num [exitIdx, exitGo, List.range', pyIdx, exThr71, exSpeed71, List.getD]
  have h8 : (25:ℚ) < exSpeed71.getD 5 0 - (apexFrom exSpeed71 30).2 := by
    rw [hapex]
    norm_num [exSpeed71, List.getD]
  have hmk : mkCorner exSpeed71 exDist71 exBrake71 exThr71
      (([] : List Corner).length + 1) 5 (apexFrom exSpeed71 30).1 30
      (apexFrom exSpeed71 30).2 = Except.ok exCorner71 := by
    rw [hapex]
    norm_num [mkCorner, exCorner71, pyIdx, exDist71, exBrake71, exThr71, exSpeed71,
      List.getD]
  have h1 : (30:ℕ) + 40 < exSpeed71.length := by norm_num [exSpeed71]
  have h3 : (40:ℚ) <
      npMean ((exSpeed71.take 30).drop (30 - 10)) - exSpeed71.getD 30 0 := by
    norm_num [npMean, exSpeed71, List.getD]
  have h4 : pyIdx exDist71 30 = Except.ok 30 := rfl
  have h5 : (150:ℚ) < 30 - (-150) := by norm_num
  have hcons : exSpeed71 = (200 : ℚ) :: exSpeed71.tail := rfl
  rw [get_corner_analysis]
  nth_rewrite 2 [hcons]
  refine Eq.trans (cornerScanGo_accept h1 (by norm_num) h3 h4 h5 hbp hex h8 hmk) ?_
  have hstop : ¬ 30 + 20 + 40 < exSpeed71.length := by norm_num [exSpeed71]
  have hapd : exCorner71.apex.distance = 30 := rfl
  rw [hapd]
  exact cornerScanGo_halt hstop

/-- C4 (counterexample to the claim as stated): on the 71-sample input the
single corner is detected at scan index 30; brake is above 25 at indices 5
and 20, the last lookback index with `brake > 25` is 20 (at distance 20),
but the reported brake point is the first match, at distance 5. -/
theorem brake_point_not_last_match :
    cornersOf (get_corner_analysis exSpeed71 exDist71 exBrake71 exThr71) =
      [exCorner71] ∧
    exCorner71.brakePoint.distance = 5 ∧
    lastBrakeIdx exBrake71 30 = 20 ∧
    exDist71.getD 20 0 = 20 ∧ (5 : ℚ) ≠ 20 := by
  have hc : cornersOf (Except.ok [exCorner71]) = [exCorner71] := rfl
  refine ⟨?_, rfl, ?_, rfl, by norm_num⟩
  · rw [corner71_eval, hc]
  · norm_num [lastBrakeIdx, exBrake71, List.range', List.getD, List.filter]

/-! ## C6 -/

/-- The throttle application-point loop over any in-bounds index list
collects exactly the upward crossings, in order. -/
lemma throttlePointsGo_eq (throttle distance : List ℚ) :
    ∀ (L : List ℕ) (acc : List ThrottlePoint), (∀ j ∈ L, j < distance.length) →
      throttlePointsGo throttle distance L acc =
        Except.ok (acc ++ ((L.filter fun i =>
          decide (throttle.getD (i - 1) 0 < 50 ∧ 50 ≤ throttle.getD i 0)).map
          fun i => ThrottlePoint.mk (distance.getD i 0) (throttle.getD i 0))) := by
  intro L
  induction L with
  | nil => intro acc _; simp [throttlePointsGo]
  | cons i rest ih =>
    intro acc hb
    have hi : i < distance.length := hb i (List.mem_cons_self i rest)
    have hrest : ∀ j ∈ rest, j < distance.length :=
      fun x hx => hb x (List.mem_cons_of_mem _ hx)
    by_cases h : throttle.getD (i - 1) 0 < 50 ∧ 50 ≤ throttle.getD i 0
    · simp only [throttlePointsGo, if_pos h, pyIdx_lt hi, ih _ hrest,
        List.filter_cons, decide_eq_true h]
      simp
    · simp only [throttlePointsGo, if_neg h, ih _ hrest, List.filter_cons,
        decide_eq_false h]
      simp

/-- C6 (amended): the reported throttle application points are the upward
crossings `throttle[i-1] < 50 ≤ throttle[i]` for `1 ≤ i ≤ len - 2` — the
final sample index is never examined — in order, capped to the first 15. -/
theorem throttle_points_characterization (throttle distance : List ℚ)
    (h : distance.length = throttle.length) :
    ∃ r, get_throttle_trace throttle distance = Except.ok r ∧
      r.throttleApplicationPoints =
        specThrottlePoints throttle distance (throttle.length - 2) := by
  rw [get_throttle_trace,
    throttlePointsGo_eq throttle distance (List.range' 1 (throttle.length - 2)) []
      (by intro j hj; rw [List.mem_range'] at hj; omega)]
  exact ⟨_, rfl, by simp [specThrottlePoints]⟩

/-- Witness for C6: throttle `[0, 60, 0]` with distance `[0, 1, 2]` has its
single crossing at index 1 and the detector reports it. -/
theorem throttle_points_characterization_witness :
    specThrottlePoints [0, 60, 0] [0, 1, 2] 1 = [ThrottlePoint.mk 1 60] ∧
    ∃ r, get_throttle_trace [0, 60, 0] [0, 1, 2] = Except.ok r ∧
      r.throttleApplicationPoints =
        specThrottlePoints [0, 60, 0] [0, 1, 2] (List.length [(0:ℚ), 60, 0] - 2) :=
  ⟨by norm_num [specThrottlePoints, List.range', List.filter, List.getD],
   throttle_points_characterization [0, 60, 0] [0, 1, 2] (by decide)⟩

/-- C6 (counterexample to the claim as stated): for throttle `[0, 60]` the
upward crossing at the last index 1 is never examined
(`range(1, len(throttle) - 1)` is empty), so the code reports no
application point although the claim predicts one. -/
theorem throttle_crossing_at_last_index_missed :
    get_throttle_trace exThrLast exTwo = Except.ok ⟨0, 50, 50, []⟩ ∧
    specThrottlePoints exThrLast exTwo (exThrLast.length - 1) =
      [ThrottlePoint.mk 1 60] ∧
    ([] : List ThrottlePoint) ≠ [ThrottlePoint.mk 1 60] := by
  refine ⟨?_, ?_, by simp⟩
  · norm_num [get_throttle_trace, throttlePointsGo, exThrLast, exTwo, List.range',
      List.filter]
  · norm_num [specThrottlePoints, exThrLast, exTwo, List.range', List.filter,
      List.getD]

/-! ## C3 -/

/-- A brake series that never exceeds 10 while the scan is out of a zone
produces no brake zones. -/
lemma brakeZoneScan_notriggered (brake speed distance : List ℚ) :
    ∀ (rem : List ℚ) (i zs : ℕ) (acc : List BrakeZone), (∀ b ∈ rem, b ≤ 10) →
      brakeZoneScan brake speed distance rem i false zs acc = Except.ok acc := by
  intro rem
  induction rem with
  | nil => intro i zs acc _; rfl
  | cons b rest ih =>
    intro i zs acc h
    have hb : b ≤ 10 := h b (List.mem_cons_self b rest)
    show brakeZoneScan brake speed distance (b :: rest) i false zs acc = _
    rw [brakeZoneScan, if_neg fun hcon => absurd hcon.1 (not_lt.mpr hb),
      if_neg fun hcon => Bool.false_ne_true hcon.2]
    exact ih (i + 1) zs acc fun x hx => h x (List.mem_cons_of_mem _ hx)

set_option maxHeartbeats 1000000 in
/-- The corner scan on the constant-200 scenario lap finds no corner: the
speed drop is 0 at every visited index, so the cursor moves 30, 35, ..., 55
and stops at 60. -/
lemma corner_const_eval :
    get_corner_analysis exConstSpeed exDist100 exZero100 exZero100 =
      Except.ok [] := by
  rw [get_corner_analysis]
  simp only [exConstSpeed, exDist100, exZero100]
  refine Eq.trans (cornerScanGo_nodrop (by norm_num) (by norm_num)
    (by norm_num [npMean])) ?_
  refine Eq.trans (cornerScanGo_nodrop (by norm_num) (by norm_num)
    (by norm_num [npMean])) ?_
  refine Eq.trans (cornerScanGo_nodrop (by norm_num) (by norm_num)
    (by norm_num [npMean])) ?_
  refine Eq.trans (cornerScanGo_nodrop (by norm_num) (by norm_num)
    (by norm_num [npMean])) ?_
  refine Eq.trans (cornerScanGo_nodrop (by norm_num) (by norm_num)
    (by norm_num [npMean])) ?_
  refine Eq.trans (cornerScanGo_nodrop (by norm_num) (by norm_num)
    (by norm_num [npMean])) ?_
  exact cornerScanGo_halt (by norm_num)

set_option maxHeartbeats 1000000 in
/-- The brake analyzer on the all-zero scenario brake channel reports no
zones and zero aggregates. -/
lemma brake_const_eval :
    get_brake_analysis exZero100 exConstSpeed exDist100 =
      Except.ok ⟨[], 0, 0⟩ := by
  have hscan : brakeZoneScan exZero100 exConstSpeed exDist100 exZero100 0 false 0 [] =
      Except.ok [] := by
    refine brakeZoneScan_notriggered _ _ _ _ _ _ _ ?_
    intro b hb
    have : b = 0 := by simpa [exZero100] using hb
    norm_num [this]
  rw [get_brake_analysis, hscan]
  norm_num [exZero100, List.filter, List.any]

set_option maxHeartbeats 2000000 in
set_option maxRecDepth 8000 in
/-- The downforce estimator on the constant-200 scenario lap: the strict
top-quartile mask is empty, so the high-speed average is 0; the variance is
0 and the aerodynamic efficiency is `0 / (0 + 1) = 0`. -/
lemma downforce_const_eval :
    get_downforce_analysis exConstSpeed = Except.ok ⟨30, 0, 0, 0, 0⟩ := by
  have hm : npMean exConstSpeed = 200 := by norm_num [npMean, exConstSpeed]
  have h75 : npPercentile exConstSpeed 75 = 200 := by
    norm_num [npPercentile, exConstSpeed, sortAsc, insertAsc, Rat.floor, Int.toNat,
      List.getD]
  have h25 : npPercentile exConstSpeed 25 = 200 := by
    norm_num [npPercentile, exConstSpeed, sortAsc, insertAsc, Rat.floor, Int.toNat,
      List.getD]
  have hv : npVar exConstSpeed = 0 := by
    rw [npVar, hm]
    norm_num [npMean, exConstSpeed]
  rw [get_downforce_analysis]
  rw [if_neg (by norm_num [exConstSpeed])]
  rw [h75, h25, hv]
  norm_num [exConstSpeed, List.filter]

/-- C3 (amended): on the scenario lap — speed constant at 200 for 100
samples, brake and throttle zero — the code reports zero corners, zero
brake zones, speed variance 0, and aerodynamic efficiency 0 (not 200: the
strict `speed > percentile75` mask is empty for a constant series, so the
high-speed average underlying the efficiency ratio is 0). -/
theorem constant_speed_scenario :
    get_corner_analysis exConstSpeed exDist100 exZero100 exZero100 =
      Except.ok [] ∧
    get_brake_analysis exZero100 exConstSpeed exDist100 = Except.ok ⟨[], 0, 0⟩ ∧
    get_downforce_analysis exConstSpeed = Except.ok ⟨30, 0, 0, 0, 0⟩ :=
  ⟨corner_const_eval, brake_const_eval, downforce_const_eval⟩

/-- C3 (counterexample to the claim as stated): the aerodynamic efficiency
of the constant-200 lap is 0, not 200. -/
theorem constant_speed_aero_eff_not_200 :
    aeroOf (get_downforce_analysis exConstSpeed) = 0 ∧ (0 : ℚ) ≠ 200 := by
  constructor
  · rw [downforce_const_eval]
    rfl
  · norm_num

/-! ## C8 -/

/-- The stint loop equals the spec-side grouping of the retained laps, for
every coherent loop state (`stint_laps` non-empty forces a current
compound). -/
lemma tireStintsGo_eq :
    ∀ (laps : List Lap) (cur : Option String) (sl : List (ℕ × ℚ)) (acc : List Stint),
      (sl ≠ [] → ∃ c, cur = some c) →
      tireStintsGo laps cur sl acc =
        acc ++ (stintGroupsGo (retainedLaps laps) (pendingOf cur sl)).map
          fun g => mkStint (some g.1) g.2 := by
  intro laps
  induction laps with
  | nil =>
    intro cur sl acc hco
    by_cases hsl : sl.isEmpty
    · have : sl = [] := List.isEmpty_iff.mp hsl
      subst this
      simp [tireStintsGo, retainedLaps, stintGroupsGo, pendingOf]
    · obtain ⟨c, rfl⟩ := hco (by simpa [List.isEmpty_iff] using hsl)
      simp [tireStintsGo, retainedLaps, stintGroupsGo, pendingOf, hsl]
  | cons lap rest ih =>
    intro cur sl acc hco
    rcases hc : lap.compound with _ | c0
    · rw [show tireStintsGo (lap :: rest) cur sl acc =
          tireStintsGo rest cur sl acc by rw [tireStintsGo, hc]]
      rw [show retainedLaps (lap :: rest) = retainedLaps rest by
        rw [retainedLaps, List.filterMap_cons, hc]; rfl]
      exact ih cur sl acc hco
    · rcases ht : lap.lapTime with _ | t
      · rw [show tireStintsGo (lap :: rest) cur sl acc =
            tireStintsGo rest cur sl acc by rw [tireStintsGo, hc, ht]]
        rw [show retainedLaps (lap :: rest) = retainedLaps rest by
          rw [retainedLaps, List.filterMap_cons, hc, ht]; rfl]
        exact ih cur sl acc hco
      · have hret : retainedLaps (lap :: rest) =
            (pyUpper c0, lap.lapNumber, t) :: retainedLaps rest := by
          rw [retainedLaps, List.filterMap_cons, hc, ht]; rfl
        rw [hret]
        by_cases heq : some (pyUpper c0) = cur
        · -- same compound: extend the stint
          have hcur : cur = some (pyUpper c0) := heq.symm
          subst hcur
          rw [show tireStintsGo (lap :: rest) (some (pyUpper c0)) sl acc =
              tireStintsGo rest (some (pyUpper c0)) (sl ++ [(lap.lapNumber, t)]) acc by
            simp only [tireStintsGo, hc, ht]
            rw [if_neg (not_not_intro rfl)]]
          rw [ih _ _ _ (fun _ => ⟨_, rfl⟩)]
          cases sl with
          | nil => simp [pendingOf, stintGroupsGo]
          | cons s0 sl' => simp [pendingOf, stintGroupsGo]
        · -- compound change: close the current stint (if any) and open a new one
          rw [show tireStintsGo (lap :: rest) cur sl acc =
              tireStintsGo rest (some (pyUpper c0)) [(lap.lapNumber, t)]
                (if sl.isEmpty then acc else acc ++ [mkStint cur sl]) by
            simp only [tireStintsGo, hc, ht]
            rw [if_pos heq]]
          rw [ih (some (pyUpper c0)) [(lap.lapNumber, t)] _ (fun _ => ⟨_, rfl⟩)]
          cases sl with
          | nil => simp [pendingOf, stintGroupsGo]
          | cons s0 sl' =>
            obtain ⟨c, hcur⟩ := hco (by simp)
            subst hcur
            have hne : ¬ (pyUpper c0 = c) := fun h => heq (by rw [h])
            simp [pendingOf, stintGroupsGo, hne, List.append_assoc]

/-- Concatenating the groups (each lap tagged with its group's compound)
reproduces the retained lap sequence. -/
lemma stintGroupsGo_join :
    ∀ (pts : List (String × ℕ × ℚ)) (pend : Option (String × List (ℕ × ℚ))),
      ((stintGroupsGo pts pend).flatMap fun g => g.2.map fun nt => (g.1, nt.1, nt.2)) =
        (match pend with
          | none => []
          | some g => g.2.map fun nt => (g.1, nt.1, nt.2)) ++ pts := by
  intro pts
  induction pts with
  | nil =>
    intro pend
    cases pend with
    | none => simp [stintGroupsGo]
    | some g => simp [stintGroupsGo]
  | cons p rest ih =>
    obtain ⟨c, n, t⟩ := p
    intro pend
    cases pend with
    | none => simp [stintGroupsGo, ih]
    | some g =>
      obtain ⟨c', ls⟩ := g
      by_cases hcc : c = c'
      · subst hcc
        simp [stintGroupsGo, ih]
      · simp [stintGroupsGo, hcc, ih]

/-- The first group emitted from a pending group keeps its compound. -/
lemma stintGroupsGo_head_fst :
    ∀ (pts : List (String × ℕ × ℚ)) (c : String) (ls : List (ℕ × ℚ)),
      (stintGroupsGo pts (some (c, ls))).head?.map Prod.fst = some c := by
  intro pts
  induction pts with
  | nil => intro c ls; rfl
  | cons p rest ih =>
    obtain ⟨c2, n, t⟩ := p
    intro c ls
    by_cases hcc : c2 = c
    · subst hcc
      simp only [stintGroupsGo, if_pos rfl]
      exact ih c2 (ls ++ [(n, t)])
    · simp [stintGroupsGo, hcc]

/-- Adjacent groups have different compounds (stint boundaries occur
exactly at compound changes). -/
lemma stintGroupsGo_chain :
    ∀ (pts : List (String × ℕ × ℚ)) (pend : Option (String × List (ℕ × ℚ))),
      List.Chain' (fun a b => a.1 ≠ b.1) (stintGroupsGo pts pend) := by
  intro pts
  induction pts with
  | nil =>
    intro pend
    cases pend with
    | none => simp [stintGroupsGo]
    | some g => simp [stintGroupsGo]
  | cons p rest ih =>
    obtain ⟨c, n, t⟩ := p
    intro pend
    cases pend with
    | none => simpa [stintGroupsGo] using ih (some (c, [(n, t)]))
    | some g =>
      obtain ⟨c', ls⟩ := g
      by_cases hcc : c = c'
      · subst hcc
        simpa [stintGroupsGo] using ih (some (c, ls ++ [(n, t)]))
      · simp only [stintGroupsGo, if_neg hcc]
        rw [List.chain'_cons']
        refine ⟨?_, ih (some (c, [(n, t)]))⟩
        intro y hy
        have := stintGroupsGo_head_fst rest c [(n, t)]
        intro hfst
        rw [Option.mem_def] at hy
        rw [hy] at this
        simp at this
        exact hcc (by rw [← this, ← hfst])

/-- Every reported group is non-empty. -/
lemma stintGroupsGo_ne_nil :
    ∀ (pts : List (String × ℕ × ℚ)) (pend : Option (String × List (ℕ × ℚ))),
      (∀ g, pend = some g → g.2 ≠ []) →
      ∀ g ∈ stintGroupsGo pts pend, g.2 ≠ [] := by
  intro pts
  induction pts with
  | nil =>
    intro pend hp g hg
    cases pend with
    | none => simp [stintGroupsGo] at hg
    | some g0 =>
      simp [stintGroupsGo] at hg
      subst hg
      exact hp g rfl
  | cons p rest ih =>
    obtain ⟨c, n, t⟩ := p
    intro pend hp g hg
    cases pend with
    | none =>
      exact ih (some (c, [(n, t)])) (by rintro g0 ⟨rfl⟩; simp) g hg
    | some g0 =>
      obtain ⟨c', ls⟩ := g0
      by_cases hcc : c = c'
      · subst hcc
        rw [show stintGroupsGo ((c, n, t) :: rest) (some (c, ls)) =
            stintGroupsGo rest (some (c, ls ++ [(n, t)])) by
          simp [stintGroupsGo]] at hg
        exact ih _ (by rintro g0 ⟨rfl⟩; simp) g hg
      · rw [show stintGroupsGo ((c, n, t) :: rest) (some (c', ls)) =
            (c', ls) :: stintGroupsGo rest (some (c, [(n, t)])) by
          simp [stintGroupsGo, hcc]] at hg
        rcases List.mem_cons.mp hg with rfl | hg2
        · exact hp (c', ls) rfl
        · exact ih _ (by rintro g0 ⟨rfl⟩; simp) g hg2

set_option maxHeartbeats 1000000 in
/-- C8: the reported stints are exactly the maximal runs of consecutive
retained laps (compound and lap time both present) on one compound:
flattening the groups reproduces the retained sequence, adjacent groups
differ in compound, every group is non-empty, each stint's degradation is
`(last - first) / count` for stints of ≥ 3 laps and `0` otherwise; and the
scenario `[SOFT]×5 ++ [MEDIUM]×5` yields exactly the two expected stints of
length 5. -/
theorem tire_stints_characterization :
    (∀ laps : List Lap,
      get_tire_degradation laps =
        (stintGroups (retainedLaps laps)).map (fun g => mkStint (some g.1) g.2) ∧
      ((stintGroups (retainedLaps laps)).flatMap fun g =>
        g.2.map fun nt => (g.1, nt.1, nt.2)) = retainedLaps laps ∧
      List.Chain' (fun a b => a.1 ≠ b.1) (stintGroups (retainedLaps laps)) ∧
      (∀ g ∈ stintGroups (retainedLaps laps), g.2 ≠ []) ∧
      (∀ s ∈ get_tire_degradation laps, s.degradation =
        if s.laps.length < 3 then 0
        else ((s.laps.map Prod.snd).getLastD 0 - (s.laps.map Prod.snd).headD 0) /
          s.laps.length)) ∧
    get_tire_degradation exStintLaps = [exStintSoft, exStintMedium] := by
  constructor
  · intro laps
    have hmain : get_tire_degradation laps =
        (stintGroups (retainedLaps laps)).map fun g => mkStint (some g.1) g.2 := by
      rw [get_tire_degradation, tireStintsGo_eq laps none [] [] (fun h => absurd rfl h)]
      simp [stintGroups, pendingOf]
    refine ⟨hmain, ?_, ?_, ?_, ?_⟩
    · have := stintGroupsGo_join (retainedLaps laps) none
      simpa [stintGroups] using this
    · exact stintGroupsGo_chain _ _
    · refine stintGroupsGo_ne_nil _ _ ?_
      intro g hg
      cases hg
    · intro s hs
      rw [hmain] at hs
      obtain ⟨g, hg, rfl⟩ := List.mem_map.mp hs
      simp [mkStint, calculate_degradation]
  · have hS : pyUpper "SOFT" = "SOFT" := rfl
    have hM : pyUpper "MEDIUM" = "MEDIUM" := rfl
    norm_num [get_tire_degradation, tireStintsGo, exStintLaps, hS, hM, mkStint,
      calculate_degradation, npMean, Option.some_ne_none,
      (by decide : ("MEDIUM" : String) ≠ "SOFT"),
      (by decide : ("SOFT" : String) ≠ "MEDIUM"), exStintSoft, exStintMedium]

/-- Witness for C8: the characterization applied to the scenario laps, plus
the degradation formula instantiated at the scenario's SOFT stint. -/
theorem tire_stints_characterization_witness :
    get_tire_degradation exStintLaps =
      (stintGroups (retainedLaps exStintLaps)).map (fun g => mkStint (some g.1) g.2) ∧
    exStintSoft.degradation =
      if exStintSoft.laps.length < 3 then 0
      else ((exStintSoft.laps.map Prod.snd).getLastD 0 -
        (exStintSoft.laps.map Prod.snd).headD 0) / exStintSoft.laps.length := by
  refine ⟨(tire_stints_characterization.1 exStintLaps).1, ?_⟩
  refine (tire_stints_characterization.1 exStintLaps).2.2.2.2 _ ?_
  rw [tire_stints_characterization.2]
  exact List.mem_cons_self _ _

/-! ## C9 -/

lemma sum_map_sub {α : Type} (l : List α) (f g : α → ℚ) :
    (l.map fun a => f a - g a).sum = (l.map f).sum - (l.map g).sum := by
  induction l with
  | nil => simp
  | cons a l ih => simp [ih]; ring

lemma sum_map_const {α : Type} (l : List α) (c : ℚ) :
    (l.map fun _ => c).sum = l.length * c := by
  induction l with
  | nil => simp
  | cons a l ih => simp [ih]; ring

/-- First normal equation: the residuals of the fitted line sum to zero. -/
lemma lsq_normal_eq1 (pts : List (ℕ × ℚ)) (hn : (pts.length : ℚ) ≠ 0) :
    (pts.map fun p => p.2 - (lsqSlope pts * p.1 + lsqIntercept pts)).sum = 0 := by
  have hexp : (pts.map fun p => p.2 - (lsqSlope pts * p.1 + lsqIntercept pts)).sum
      = sumY pts - (lsqSlope pts * sumX pts + (pts.length : ℚ) * lsqIntercept pts) := by
    rw [sum_map_sub pts (fun p => p.2) (fun p => lsqSlope pts * p.1 + lsqIntercept pts)]
    rw [List.sum_map_add]
    rw [List.sum_map_mul_left]
    rw [sum_map_const]
    rfl
  rw [hexp, lsqIntercept]
  field_simp

/-- Second normal equation: the residuals are orthogonal to the lap
numbers. -/
lemma lsq_normal_eq2 (pts : List (ℕ × ℚ)) (hn : (pts.length : ℚ) ≠ 0)
    (hD : lsqDen pts ≠ 0) :
    (pts.map fun p => (p.1 : ℚ) * (p.2 - (lsqSlope pts * p.1 + lsqIntercept pts))).sum
      = 0 := by
  have hexp : (pts.map fun p =>
      (p.1 : ℚ) * (p.2 - (lsqSlope pts * p.1 + lsqIntercept pts))).sum
      = sumXY pts - (lsqSlope pts * sumXX pts + lsqIntercept pts * sumX pts) := by
    rw [List.map_congr_left (fun p _ => by ring :
      ∀ p ∈ pts, (p.1 : ℚ) * (p.2 - (lsqSlope pts * p.1 + lsqIntercept pts)) =
        (p.1 : ℚ) * p.2 -
          (lsqSlope pts * ((p.1 : ℚ) * p.1) + lsqIntercept pts * p.1))]
    rw [sum_map_sub pts (fun p => (p.1 : ℚ) * p.2)
      (fun p => lsqSlope pts * ((p.1 : ℚ) * p.1) + lsqIntercept pts * p.1)]
    rw [List.sum_map_add]
    rw [List.sum_map_mul_left]
    rw [List.sum_map_mul_left]
    rfl
  rw [hexp, lsqIntercept, lsqSlope]
  rw [lsqDen] at hD
  rw [lsqDen]
  field_simp
  ring

/-- The `np.polyfit` slope/intercept pair minimizes the sum of squared
residuals over all affine models. -/
lemma lsq_optimal (pts : List (ℕ × ℚ)) (hn : (pts.length : ℚ) ≠ 0)
    (hD : lsqDen pts ≠ 0) (a b : ℚ) :
    sqError pts (lsqSlope pts) (lsqIntercept pts) ≤ sqError pts a b := by
  have hpt : ∀ p ∈ pts, (p.2 - (a * (p.1 : ℚ) + b)) * (p.2 - (a * (p.1 : ℚ) + b)) =
      (p.2 - (lsqSlope pts * p.1 + lsqIntercept pts)) *
        (p.2 - (lsqSlope pts * p.1 + lsqIntercept pts)) +
      (2 * ((lsqSlope pts - a) * ((p.1 : ℚ) *
          (p.2 - (lsqSlope pts * p.1 + lsqIntercept pts))) +
        (lsqIntercept pts - b) * (p.2 - (lsqSlope pts * p.1 + lsqIntercept pts))) +
       ((lsqSlope pts - a) * p.1 + (lsqIntercept pts - b)) *
         ((lsqSlope pts - a) * p.1 + (lsqIntercept pts - b))) :=
    fun p _ => by ring
  have hdec : sqError pts a b = sqError pts (lsqSlope pts) (lsqIntercept pts) +
      (2 * ((lsqSlope pts - a) *
          (pts.map fun p => (p.1 : ℚ) *
            (p.2 - (lsqSlope pts * p.1 + lsqIntercept pts))).sum +
        (lsqIntercept pts - b) *
          (pts.map fun p => p.2 - (lsqSlope pts * p.1 + lsqIntercept pts)).sum) +
       (pts.map fun p => ((lsqSlope pts - a) * p.1 + (lsqIntercept pts - b)) *
         ((lsqSlope pts - a) * p.1 + (lsqIntercept pts - b))).sum) := by
    simp only [sqError]
    rw [List.map_congr_left hpt]
    simp only [List.sum_map_add, List.sum_map_mul_left]
  rw [lsq_normal_eq1 pts hn, lsq_normal_eq2 pts hn hD] at hdec
  have hw : 0 ≤ (pts.map fun p => ((lsqSlope pts - a) * p.1 + (lsqIntercept pts - b)) *
      ((lsqSlope pts - a) * p.1 + (lsqIntercept pts - b))).sum := by
    apply List.sum_nonneg
    intro x hx
    obtain ⟨p, _, rfl⟩ := List.mem_map.mp hx
    exact mul_self_nonneg _
  linarith

/-- C9: with fewer than 5 valid laps, `get_fuel_effect` returns the
zero-effect dictionary without fitting anything; with ≥ 5 valid laps it
reports the slope of the first-degree least-squares fit of lap time against
lap number (proved optimal: that slope/intercept pair minimizes the sum of
squared residuals whenever the fit is non-degenerate) and the total effect
`slope × lap count`. -/
theorem fuel_effect_branches_and_least_squares :
    ∀ laps : List Lap,
      ((validPairs laps).length < 5 →
        get_fuel_effect laps = FuelEffect.insufficient 0) ∧
      (5 ≤ (validPairs laps).length →
        get_fuel_effect laps = FuelEffect.fitted (lsqSlope (validPairs laps))
          (lsqSlope (validPairs laps) * (validPairs laps).length) ∧
        (lsqDen (validPairs laps) ≠ 0 → ∀ a b : ℚ,
          sqError (validPairs laps) (lsqSlope (validPairs laps))
            (lsqIntercept (validPairs laps)) ≤ sqError (validPairs laps) a b)) := by
  intro laps
  constructor
  · intro h
    simp [get_fuel_effect, if_pos h]
  · intro h
    have hlt : ¬ (validPairs laps).length < 5 := not_lt.mpr h
    have h1 : 1 < (validPairs laps).length := by omega
    refine ⟨by simp [get_fuel_effect, hlt, h1], ?_⟩
    intro hD a b
    refine lsq_optimal _ ?_ hD a b
    have hpos : 0 < (validPairs laps).length := by omega
    exact_mod_cast (Nat.cast_pos.mpr hpos).ne'

/-- Witness for C9: the five scenario laps with lap time `89 + lap number`
fit with slope exactly 1, and the fitted line beats the model `y = 0`. -/
theorem fuel_effect_branches_witness :
    get_fuel_effect exFuelLaps = FuelEffect.fitted (lsqSlope (validPairs exFuelLaps))
      (lsqSlope (validPairs exFuelLaps) * (validPairs exFuelLaps).length) ∧
    lsqSlope (validPairs exFuelLaps) = 1 ∧
    sqError (validPairs exFuelLaps) (lsqSlope (validPairs exFuelLaps))
      (lsqIntercept (validPairs exFuelLaps)) ≤ sqError (validPairs exFuelLaps) 0 0 := by
  have hlen : 5 ≤ (validPairs exFuelLaps).length := by decide
  have h := (fuel_effect_branches_and_least_squares exFuelLaps).2 hlen
  have hvp : validPairs exFuelLaps = [(1, 90), (2, 91), (3, 92), (4, 93), (5, 94)] := rfl
  have hD : lsqDen (validPairs exFuelLaps) ≠ 0 := by
    rw [hvp]
    norm_num [lsqDen, sumXX, sumX]
  refine ⟨h.1, ?_, h.2 hD 0 0⟩
  rw [hvp]
  norm_num [lsqSlope, lsqDen, sumX, sumY, sumXX, sumXY]

/-! ## C5 -/


lemma ite_true_eq {α : Type} (x y : α) : (if true = true then x else y) = x := rfl

lemma ite_false_eq {α : Type} (x y : α) : (if false = true then x else y) = y := rfl

/-- On co-indexed channels, closing the zone `[zs, p)` builds exactly the
spec-side zone record of the run `(zs, p - zs)`. -/
lemma mkBrakeZone_ok {brake speed distance : List ℚ} {zs p : ℕ}
    (hz : zs < p) (hp : p ≤ distance.length) :
    mkBrakeZone brake speed distance zs p =
      Except.ok (specZone brake speed distance (zs, p - zs)) := by
  have h1 : zs < distance.length := by omega
  have h2 : p - 1 < distance.length := by omega
  have hi : zs + (p - zs) = p := by omega
  simp only [mkBrakeZone, specZone, pyIdx_lt h1, pyIdx_lt h2, hi]

/-- The brake-zone loop reports exactly the maximal `brake > 10` runs that
are longer than 5 samples and closed before the end of the series, in scan
order, as spec-side zone records. -/
lemma brakeZoneScan_eq (brake speed distance : List ℚ)
    (hd : distance.length = brake.length) :
    ∀ (rem : List ℚ) (p : ℕ) (inZ : Bool) (zs : ℕ) (acc : List BrakeZone),
      brake.drop p = rem →
      (inZ = true → zs < p) →
      brakeZoneScan brake speed distance rem p inZ zs acc =
        Except.ok (acc ++
          ((brakeRunsGo rem p (if inZ then some zs else none)).filter fun r =>
            decide (5 < r.2 ∧ r.1 + r.2 < brake.length)).map
            (specZone brake speed distance)) := by
  intro rem
  induction rem generalizing brake speed distance with
  | nil =>
    intro p inZ zs acc hdrop hco
    have hp : brake.length ≤ p := by
      have := congrArg List.length hdrop
      simp [List.length_drop] at this
      omega
    cases inZ with
    | false => simp [brakeZoneScan, brakeRunsGo]
    | true =>
      have hzs := hco rfl
      have hfa : ¬ (5 < p - zs ∧ zs + (p - zs) < brake.length) := by omega
      simp [brakeZoneScan, brakeRunsGo, hfa]
  | cons b rest ih =>
    intro p inZ zs acc hdrop hco
    have hp : p < brake.length := by
      have := congrArg List.length hdrop
      simp [List.length_drop] at this
      omega
    have hdrop' : brake.drop (p + 1) = rest := by
      calc brake.drop (p + 1) = (brake.drop p).tail := (List.tail_drop brake p).symm
        _ = rest := by rw [hdrop]; rfl
    cases inZ with
    | false =>
      by_cases hb : 10 < b
      · rw [show brakeZoneScan brake speed distance (b :: rest) p false zs acc =
            brakeZoneScan brake speed distance rest (p + 1) true p acc by
          rw [brakeZoneScan, if_pos ⟨hb, rfl⟩]]
        rw [ih brake speed distance hd (p + 1) true p acc hdrop' (fun _ => by omega)]
        simp only [ite_true_eq, ite_false_eq, if_true, if_false]
        rw [show brakeRunsGo (b :: rest) p none = brakeRunsGo rest (p + 1) (some p) by
          simp [brakeRunsGo, hb]]
      · rw [show brakeZoneScan brake speed distance (b :: rest) p false zs acc =
            brakeZoneScan brake speed distance rest (p + 1) false zs acc by
          rw [brakeZoneScan, if_neg fun hcon => hb hcon.1,
            if_neg fun hcon => Bool.false_ne_true hcon.2]]
        rw [ih brake speed distance hd (p + 1) false zs acc hdrop'
          (fun h => absurd h (by simp))]
        simp only [ite_true_eq, ite_false_eq, if_true, if_false]
        rw [show brakeRunsGo (b :: rest) p none = brakeRunsGo rest (p + 1) none by
          simp [brakeRunsGo, hb]]
    | true =>
      have hzs : zs < p := hco rfl
      by_cases hb : 10 < b
      · rw [show brakeZoneScan brake speed distance (b :: rest) p true zs acc =
            brakeZoneScan brake speed distance rest (p + 1) true zs acc by
          rw [brakeZoneScan, if_neg fun hcon => absurd hcon.2 (by simp),
            if_neg fun hcon => absurd hb (not_lt.mpr hcon.1)]]
        rw [ih brake speed distance hd (p + 1) true zs acc hdrop' (fun _ => by omega)]
        simp only [ite_true_eq, ite_false_eq, if_true, if_false]
        rw [show brakeRunsGo (b :: rest) p (some zs) =
            brakeRunsGo rest (p + 1) (some zs) by simp [brakeRunsGo, hb]]
      · have hble : b ≤ 10 := not_lt.mp hb
        have hlen : ((brake.take p).drop zs).length = p - zs := by
          simp [List.length_drop, List.length_take]
          omega
        have hruns : brakeRunsGo (b :: rest) p (some zs) =
            (zs, p - zs) :: brakeRunsGo rest (p + 1) none := by
          simp [brakeRunsGo, hb]
        by_cases h5 : 5 < p - zs
        · have hmk := @mkBrakeZone_ok brake speed distance zs p hzs (by omega)
          rw [show brakeZoneScan brake speed distance (b :: rest) p true zs acc =
              brakeZoneScan brake speed distance rest (p + 1) false zs
                (acc ++ [specZone brake speed distance (zs, p - zs)]) by
            simp only [brakeZoneScan]
            rw [if_neg fun hcon => absurd hcon.2 (by simp), if_pos ⟨hble, trivial⟩,
              hlen, if_pos h5, hmk]]
          rw [ih brake speed distance hd (p + 1) false zs _ hdrop'
            (fun h => absurd h (by simp))]
          simp only [ite_true_eq, ite_false_eq, if_true, if_false]
          rw [hruns]
          have hcond : 5 < (zs, p - zs).2 ∧ (zs, p - zs).1 + (zs, p - zs).2 <
              brake.length := by
            constructor
            · exact h5
            · simp
              omega
          rw [List.filter_cons, decide_eq_true hcond]
          simp [List.append_assoc]
        · rw [show brakeZoneScan brake speed distance (b :: rest) p true zs acc =
              brakeZoneScan brake speed distance rest (p + 1) false zs acc by
            simp only [brakeZoneScan]
            rw [if_neg fun hcon => absurd hcon.2 (by simp), if_pos ⟨hble, trivial⟩,
              hlen, if_neg h5]]
          rw [ih brake speed distance hd (p + 1) false zs acc hdrop'
            (fun h => absurd h (by simp))]
          simp only [ite_true_eq, ite_false_eq, if_true, if_false]
          rw [hruns]
          have hcond : ¬ (5 < (zs, p - zs).2 ∧ (zs, p - zs).1 + (zs, p - zs).2 <
              brake.length) := fun hcon => h5 (by simpa using hcon.1)
          rw [List.filter_cons, decide_eq_false hcond, ite_false_eq]



/-- The head of `l.drop p` is `l[p]`. -/
lemma getD_of_drop (l : List ℚ) (p : ℕ) (b : ℚ) (rest : List ℚ)
    (h : l.drop p = b :: rest) : l.getD p 0 = b := by
  have h0 : (l.drop p)[0]? = some b := by rw [h]; exact List.getElem?_cons_zero
  rw [List.getElem?_drop, Nat.add_zero] at h0
  rw [List.getD_eq_getElem?_getD, h0]
  rfl



/-- `brakeRuns` is sound: every reported run is non-empty, lies strictly
above the threshold throughout, and is maximal on both sides. -/
lemma brakeRunsGo_sound (brake : List ℚ) :
    ∀ (rem : List ℚ) (p : ℕ) (cur : Option ℕ),
      brake.drop p = rem → p ≤ brake.length →
      (∀ s, cur = some s → s < p ∧ (∀ k, s ≤ k → k < p → 10 < brake.getD k 0) ∧
        (s = 0 ∨ brake.getD (s - 1) 0 ≤ 10)) →
      (cur = none → p = 0 ∨ brake.getD (p - 1) 0 ≤ 10) →
      ∀ r ∈ brakeRunsGo rem p cur,
        0 < r.2 ∧ (∀ k, k < r.2 → 10 < brake.getD (r.1 + k) 0) ∧
        (r.1 = 0 ∨ brake.getD (r.1 - 1) 0 ≤ 10) ∧
        (r.1 + r.2 = brake.length ∨ brake.getD (r.1 + r.2) 0 ≤ 10) := by
  intro rem
  induction rem with
  | nil =>
    intro p cur hdrop hple hsome _ r hr
    cases cur with
    | none => simp [brakeRunsGo] at hr
    | some s =>
      have hp : brake.length ≤ p := by
        have := congrArg List.length hdrop
        simp [List.length_drop] at this
        omega
      obtain ⟨hs, hin, hleft⟩ := hsome s rfl
      simp [brakeRunsGo] at hr
      subst hr
      refine ⟨by omega, ?_, hleft, Or.inl (by omega)⟩
      intro k hk
      exact hin (s + k) (by omega) (by omega)
  | cons b rest ih =>
    intro p cur hdrop hple hsome hnone r hr
    have hp : p < brake.length := by
      have := congrArg List.length hdrop
      simp [List.length_drop] at this
      omega
    have hdrop' : brake.drop (p + 1) = rest := by
      calc brake.drop (p + 1) = (brake.drop p).tail := (List.tail_drop brake p).symm
        _ = rest := by rw [hdrop]; rfl
    have hgb : brake.getD p 0 = b := getD_of_drop brake p b rest hdrop
    by_cases hb : 10 < b
    · rw [show brakeRunsGo (b :: rest) p cur =
          brakeRunsGo rest (p + 1) (some (cur.getD p)) by simp [brakeRunsGo, hb]] at hr
      refine ih (p + 1) (some (cur.getD p)) hdrop' (by omega) ?_
        (fun h => Option.noConfusion h) r hr
      intro s hs
      cases cur with
      | none =>
        simp at hs
        subst hs
        refine ⟨by omega, ?_, hnone rfl⟩
        intro k hk1 hk2
        have hkp : k = p := by omega
        subst hkp
        rw [hgb]
        exact hb
      | some s0 =>
        simp at hs
        subst hs
        obtain ⟨h1, h2, h3⟩ := hsome s0 rfl
        refine ⟨by omega, ?_, h3⟩
        intro k hk1 hk2
        rcases Nat.lt_or_ge k p with hkp | hkp
        · exact h2 k hk1 hkp
        · have hkp2 : k = p := by omega
          subst hkp2
          rw [hgb]
          exact hb
    · cases cur with
      | none =>
        rw [show brakeRunsGo (b :: rest) p none = brakeRunsGo rest (p + 1) none by
          simp [brakeRunsGo, hb]] at hr
        refine ih (p + 1) none hdrop' (by omega)
          (fun s hs => Option.noConfusion hs) ?_ r hr
        intro _
        right
        have hpp : p + 1 - 1 = p := by omega
        rw [hpp, hgb]
        exact not_lt.mp hb
      | some s0 =>
        rw [show brakeRunsGo (b :: rest) p (some s0) =
            (s0, p - s0) :: brakeRunsGo rest (p + 1) none by simp [brakeRunsGo, hb]] at hr
        obtain ⟨h1, h2, h3⟩ := hsome s0 rfl
        rcases List.mem_cons.mp hr with rfl | hr2
        · refine ⟨by omega, ?_, h3, ?_⟩
          · intro k hk
            exact h2 (s0 + k) (by omega) (by omega)
          · right
            have hsp : s0 + (p - s0) = p := by omega
            rw [hsp, hgb]
            exact not_lt.mp hb
        · refine ih (p + 1) none hdrop' (by omega)
            (fun s hs => Option.noConfusion hs) ?_ r hr2
          intro _
          right
          have hpp : p + 1 - 1 = p := by omega
          rw [hpp, hgb]
          exact not_lt.mp hb

set_option maxHeartbeats 400000 in
/-- C5 (amended): the reported brake zones are exactly the maximal
contiguous runs with `brake > 10` that are *longer than 5 samples* (runs of
exactly 5 or fewer are discarded by the code's `> 5` test) and that end
before the final sample (a run still open at the end of the series is never
closed, hence never reported), in scan order, capped at the first 10; in
particular every reported zone spans at least 6 samples and the zone count
is at most 10. -/
theorem brake_zones_characterization (brake speed distance : List ℚ)
    (hs : speed.length = brake.length) (hd : distance.length = brake.length) :
    (∃ res, get_brake_analysis brake speed distance = Except.ok res ∧
      res.brakeZones = (((brakeRuns brake).filter fun r =>
        decide (5 < r.2 ∧ r.1 + r.2 < brake.length)).map
        (specZone brake speed distance)).take 10 ∧
      res.brakeZones.length ≤ 10 ∧
      ∀ z ∈ res.brakeZones, (6 : ℚ) / 100 ≤ z.duration) ∧
    ∀ r ∈ brakeRuns brake, 0 < r.2 ∧
      (∀ k, k < r.2 → 10 < brake.getD (r.1 + k) 0) ∧
      (r.1 = 0 ∨ brake.getD (r.1 - 1) 0 ≤ 10) ∧
      (r.1 + r.2 = brake.length ∨ brake.getD (r.1 + r.2) 0 ≤ 10) := by
  have hscan := brakeZoneScan_eq brake speed distance hd brake 0 false 0 []
    rfl (fun h => absurd h (by simp))
  rw [ite_false_eq] at hscan
  constructor
  · rw [get_brake_analysis, hscan]
    refine ⟨_, rfl, by simp [brakeRuns], ?_, ?_⟩
    · exact le_trans (List.length_take_le _ _) (le_refl 10)
    · intro z hz
      have hz2 := List.mem_of_mem_take hz
      simp only [List.nil_append] at hz2
      obtain ⟨r, hrmem, rfl⟩ := List.mem_map.mp hz2
      have hrf := List.mem_filter.mp hrmem
      have hcond := of_decide_eq_true hrf.2
      have hlen : ((brake.take (r.1 + r.2)).drop r.1).length = r.2 := by
        simp only [List.length_drop, List.length_take]
        omega
      show (6 : ℚ) / 100 ≤ (((brake.take (r.1 + r.2)).drop r.1).length : ℚ) / 100
      rw [hlen]
      have h6 : (6 : ℚ) ≤ (r.2 : ℚ) := by exact_mod_cast hcond.1
      linarith
  · exact brakeRunsGo_sound brake brake 0 none rfl (by omega)
      (fun s hs => Option.noConfusion hs) (fun _ => Or.inl rfl)




/-- Witness for C5: brake `[0,20,20,20,20,20,20,0]` has the single maximal
run `(1, 6)`, which is long enough and closed, so it is reported. -/
theorem brake_zones_characterization_witness :
    brakeRuns exBrake8 = [(1, 6)] ∧
    (∃ res, get_brake_analysis exBrake8 exEight exEight = Except.ok res ∧
      res.brakeZones = (((brakeRuns exBrake8).filter fun r =>
        decide (5 < r.2 ∧ r.1 + r.2 < exBrake8.length)).map
        (specZone exBrake8 exEight exEight)).take 10 ∧
      res.brakeZones.length ≤ 10 ∧
      ∀ z ∈ res.brakeZones, (6 : ℚ) / 100 ≤ z.duration) :=
  ⟨rfl, (brake_zones_characterization exBrake8 exEight exEight rfl rfl).1⟩

set_option maxHeartbeats 1000000 in
/-- C5 (counterexample to the claim as stated): the brake series
`[11, 11, 11, 11, 11, 0]` has one maximal run of exactly 5 samples, which
the claim says must be reported; the code's `len(zone_data) > 5` test
discards it and reports no zone. -/
theorem brake_zone_five_samples_dropped :
    get_brake_analysis exBrake5 exSix exSix = Except.ok ⟨[], 250/3, 11⟩ ∧
    claimBrakeZones exBrake5 exSix exSix = [⟨0, 4, 11, 11, -4, 1/20⟩] ∧
    ([] : List BrakeZone) ≠ [(⟨0, 4, 11, 11, -4, 1/20⟩ : BrakeZone)] := by
  refine ⟨?_, ?_, by simp⟩
  · norm_num [get_brake_analysis, brakeZoneScan, exBrake5, exSix, mkBrakeZone,
      pyIdx, npMax, npMean, List.filter, List.any]
  · norm_num [claimBrakeZones, brakeRuns, brakeRunsGo, specZone, exBrake5, exSix,
      npMax, npMean, List.getD, List.filter]

end F1

/-! ## C7: corner output sorted by apex distance and sequentially numbered -/

namespace F1

lemma chain_le_getD {l : List ℚ} (h : List.Chain' (· ≤ ·) l) {i j : ℕ}
    (hij : i ≤ j) (hj : j < l.length) : l.getD i 0 ≤ l.getD j 0 := by
  have hi : i < l.length := Nat.lt_of_le_of_lt hij hj
  rcases Nat.eq_or_lt_of_le hij with rfl | hlt
  · exact le_refl _
  · have hp : l.Pairwise (· ≤ ·) := List.chain'_iff_pairwise.mp h
    have hle := List.pairwise_iff_get.mp hp ⟨i, hi⟩ ⟨j, hj⟩ (Fin.mk_lt_mk.mpr hlt)
    rw [List.getD_eq_getElem l 0 hi, List.getD_eq_getElem l 0 hj]
    simpa using hle

lemma chain_lt_snoc {l : List ℚ} {d y : ℚ} (hc : List.Chain' (· < ·) l)
    (hb : ∀ x ∈ l, x ≤ d) (hy : d < y) :
    List.Chain' (· < ·) (l ++ [y]) ∧ ∀ x ∈ l ++ [y], x ≤ y := by
  constructor
  · rw [List.chain'_append]
    refine ⟨hc, List.chain'_singleton y, ?_⟩
    intro x hx z hz
    simp only [List.head?_cons, Option.mem_def, Option.some.injEq] at hz
    subst hz
    exact lt_of_le_of_lt (hb x (List.mem_of_mem_getLast? hx)) hy
  · intro x hx
    rcases List.mem_append.mp hx with hmem | hmem
    · exact le_of_lt (lt_of_le_of_lt (hb x hmem) hy)
    · simp only [List.mem_singleton] at hmem
      subst hmem
      exact le_refl x

lemma numbered_nil : Numbered [] := fun k h => absurd h (Nat.not_lt_zero k)

lemma numbered_snoc {cs : List Corner} {c : Corner} (h : Numbered cs)
    (hc : c.cornerNumber = cs.length + 1) : Numbered (cs ++ [c]) := by
  intro k hk
  simp only [List.length_append, List.length_singleton] at hk
  by_cases hlt : k < cs.length
  · have : (cs ++ [c]).get ⟨k, by simp; omega⟩ = cs.get ⟨k, hlt⟩ := by
      simp only [List.get_eq_getElem]
      exact List.getElem_append_left hlt
    rw [this]
    exact h k hlt
  · have hke : k = cs.length := by omega
    subst hke
    have : (cs ++ [c]).get ⟨cs.length, by simp⟩ = c := by
      simp [List.get_eq_getElem, List.getElem_append_right]
    rw [this, hc]

lemma foldl_fst_ge (speed : List ℚ) (i : ℕ) :
    ∀ (L : List ℕ) (q : ℕ × ℚ), i ≤ q.1 → (∀ j ∈ L, i ≤ j) →
      i ≤ (L.foldl (fun p j => if speed.getD j 0 < p.2 then (j, speed.getD j 0) else p) q).1 := by
  intro L
  induction L with
  | nil => intro q hq _; exact hq
  | cons j rest ih =>
    intro q hq hL
    simp only [List.foldl_cons]
    apply ih
    · by_cases hc : speed.getD j 0 < q.2
      · simp only [if_pos hc]
        exact hL j (List.mem_cons_self j rest)
      · simp only [if_neg hc]
        exact hq
    · intro x hx
      exact hL x (List.mem_cons_of_mem _ hx)

lemma apexFrom_fst_ge (speed : List ℚ) (i : ℕ) : i ≤ (apexFrom speed i).1 := by
  rw [apexFrom]
  apply foldl_fst_ge
  · exact le_refl i
  · intro j hj
    rw [List.mem_range'] at hj
    omega

lemma mkCorner_ok {speed distance brake throttle : List ℚ} {n bp ap ex : ℕ}
    {asp : ℚ} {c : Corner}
    (h : mkCorner speed distance brake throttle n bp ap ex asp = Except.ok c) :
    c.cornerNumber = n ∧ ap < distance.length ∧
      c.apex.distance = distance.getD ap 0 := by
  unfold mkCorner at h
  cases h1 : pyIdx distance bp with
  | error e => rw [h1] at h; cases h
  | ok dbp =>
  rw [h1] at h
  cases h2 : pyIdx brake bp with
  | error e => rw [h2] at h; cases h
  | ok bbp =>
  rw [h2] at h
  cases h3 : pyIdx distance ap with
  | error e => rw [h3] at h; cases h
  | ok dap =>
  rw [h3] at h
  cases h4 : pyIdx distance ex with
  | error e => rw [h4] at h; cases h
  | ok dex =>
  rw [h4] at h
  cases h5 : pyIdx throttle ex with
  | error e => rw [h5] at h; cases h
  | ok tex =>
  rw [h5] at h
  injection h with hcc
  subst hcc
  obtain ⟨hlt, hval⟩ := pyIdx_ok h3
  exact ⟨rfl, hlt, hval.symm⟩

lemma cornerScanGo_inv (speed distance brake throttle : List ℚ)
    (hsort : List.Chain' (· ≤ ·) distance) :
    ∀ (fuel : List ℚ) (i : ℕ) (last : ℚ) (acc cs : List Corner),
      List.Chain' (· < ·) (acc.map fun c => c.apex.distance) →
      (∀ x ∈ acc.map fun c => c.apex.distance, x ≤ last) →
      Numbered acc →
      cornerScanGo speed distance brake throttle fuel i last acc = Except.ok cs →
      List.Chain' (· < ·) (cs.map fun c => c.apex.distance) ∧ Numbered cs := by
  intro fuel
  induction fuel with
  | nil =>
    intro i last acc cs hchain hbound hnum hscan
    cases hscan
    exact ⟨hchain, hnum⟩
  | cons x fuel ih =>
    intro i last acc cs hchain hbound hnum hscan
    by_cases h1 : i + 40 < speed.length
    case neg =>
      rw [cornerScanGo_halt h1] at hscan
      cases hscan
      exact ⟨hchain, hnum⟩
    case pos =>
    by_cases h2 : 20 < i
    case neg =>
      rw [cornerScanGo_warm h1 h2] at hscan
      exact ih _ _ _ _ hchain hbound hnum hscan
    case pos =>
    by_cases h3 : 40 < npMean ((speed.take i).drop (i - 10)) - speed.getD i 0
    case neg =>
      rw [cornerScanGo_nodrop h1 h2 h3] at hscan
      exact ih _ _ _ _ hchain hbound hnum hscan
    case pos =>
    cases h4 : pyIdx distance i with
    | error e =>
      rw [cornerScanGo_derr h1 h2 h3 h4] at hscan
      cases hscan
    | ok d =>
    by_cases h5 : 150 < d - last
    case neg =>
      rw [cornerScanGo_near h1 h2 h3 h4 h5] at hscan
      exact ih _ _ _ _ hchain hbound hnum hscan
    case pos =>
    cases h6 : brakePointIdx brake i with
    | error e =>
      rw [cornerScanGo_bperr h1 h2 h3 h4 h5 h6] at hscan
      cases hscan
    | ok bp =>
    cases h7 : exitIdx speed throttle (apexFrom speed i).1 with
    | error e =>
      rw [cornerScanGo_exerr h1 h2 h3 h4 h5 h6 h7] at hscan
      cases hscan
    | ok ex =>
    by_cases h8 : 25 < speed.getD bp 0 - (apexFrom speed i).2
    case neg =>
      rw [cornerScanGo_reject h1 h2 h3 h4 h5 h6 h7 h8] at hscan
      exact ih _ _ _ _ hchain hbound hnum hscan
    case pos =>
    cases h9 : mkCorner speed distance brake throttle (acc.length + 1) bp
        (apexFrom speed i).1 ex (apexFrom speed i).2 with
    | error e =>
      rw [cornerScanGo_mkerr h1 h2 h3 h4 h5 h6 h7 h8 h9] at hscan
      cases hscan
    | ok c =>
      rw [cornerScanGo_accept h1 h2 h3 h4 h5 h6 h7 h8 h9] at hscan
      obtain ⟨hnum_c, hap_lt, hap_val⟩ := mkCorner_ok h9
      obtain ⟨hd_lt, hd_val⟩ := pyIdx_ok h4
      have hlast_lt : last < c.apex.distance := by
        rw [hap_val]
        have hmono : distance.getD i 0 ≤ distance.getD (apexFrom speed i).1 0 :=
          chain_le_getD hsort (apexFrom_fst_ge speed i) hap_lt
        rw [hd_val] at hmono
        linarith
      obtain ⟨hchain', hbound'⟩ := chain_lt_snoc hchain hbound hlast_lt
      refine ih _ _ _ _ ?_ ?_ (numbered_snoc hnum hnum_c) hscan
      · rw [List.map_append]
        simpa using hchain'
      · rw [List.map_append]
        simpa using hbound'

/-- C7: for every lap whose distance series is non-decreasing and co-indexed with
speed/brake/throttle, every corner list the detector returns has strictly
increasing apex distances and corner numbers that are sequential starting at 1. -/
theorem corners_sorted_and_numbered (speed distance brake throttle : List ℚ)
    (hsort : List.Chain' (· ≤ ·) distance)
    (h1 : distance.length = speed.length) (h2 : brake.length = speed.length)
    (h3 : throttle.length = speed.length) :
    ∀ cs, get_corner_analysis speed distance brake throttle = Except.ok cs →
      List.Chain' (· < ·) (cs.map fun c => c.apex.distance) ∧ Numbered cs := by
  intro cs hscan
  exact cornerScanGo_inv speed distance brake throttle hsort speed 30 (-150) [] cs
    (by simp) (by simp) numbered_nil hscan

set_option maxHeartbeats 1000000 in
theorem corners_sorted_and_numbered_witness :
    List.Chain' (· < ·) ([exCorner71].map fun c => c.apex.distance) ∧
    Numbered [exCorner71] :=
  corners_sorted_and_numbered exSpeed71 exDist71 exBrake71 exThr71
    (by norm_num [exDist71, List.chain'_cons, List.chain'_singleton])
    rfl rfl rfl [exCorner71] corner71_eval

end F1
